import Mathlib

/-!
OpenClonk game timer: tick scheduling and frame skip.

A shallow embedding of `C4ApplicationGameTimer` from
`src/game/C4Application.cpp` (constructor, `SetGameTickDelay`, `Execute`),
followed by the properties of the tick decision, the virtual tick clock
`tLastGameTick`, the drift compensation and the automatic frame skip.

Unsigned 32-bit quantities (`uint32_t`) are natural numbers reduced modulo
`2^32` where a conversion happens. Calls into the rest of the engine
(`Application.GameTick()`, `Application.Draw()`) are parameters of the
embedding: arbitrary transformers of the modelled state, logged in a call
trace.
-/

namespace OpenClonk

/-! ## Clock readings -/

/-- Modelled from the spec: the clock reading class `C4TimeMilliseconds`, whose
declaration is not part of the sources at hand. The spec describes it as a
monotonic millisecond timestamp with a total order, addition of a duration,
subtraction giving a duration, and a constant `NegativeInfinity` below every
real reading. Real readings are unbounded integers of milliseconds. -/
inductive C4TimeMilliseconds where
  | NegativeInfinity : C4TimeMilliseconds
  | ms (t : Int) : C4TimeMilliseconds
  deriving DecidableEq, Repr

namespace C4TimeMilliseconds

/-- Modelled from the spec: `operator<`, the total order in which
`NegativeInfinity` is below every real reading. -/
def lt : C4TimeMilliseconds → C4TimeMilliseconds → Bool
  | NegativeInfinity, NegativeInfinity => false
  | NegativeInfinity, ms _ => true
  | ms _, NegativeInfinity => false
  | ms a, ms b => decide (a < b)

/-- Modelled from the spec: `operator>`, the converse of `operator<`. -/
def gt (a b : C4TimeMilliseconds) : Bool := lt b a

/-- Modelled from the spec: `operator>=`, the negation of `operator<`. -/
def ge (a b : C4TimeMilliseconds) : Bool := !lt a b

/-- Modelled from the spec: `operator+` and `operator+=`, addition of a
duration in milliseconds. A duration added to `NegativeInfinity` leaves
`NegativeInfinity`, which stays below every real reading. -/
def plus : C4TimeMilliseconds → Int → C4TimeMilliseconds
  | NegativeInfinity, _ => NegativeInfinity
  | ms t, d => ms (t + d)

/-- Modelled from the spec: `operator-`, the duration in milliseconds between
two readings. The spec gives no finite duration to or from `NegativeInfinity`;
the value `0` stands there. `Execute` only ever adds such a duration back to
`NegativeInfinity`, where `plus` ignores it. -/
def minus : C4TimeMilliseconds → C4TimeMilliseconds → Int
  | ms a, ms b => a - b
  | _, _ => 0

instance : LT C4TimeMilliseconds := ⟨fun a b => lt a b = true⟩

instance : LE C4TimeMilliseconds := ⟨fun a b => lt b a = false⟩

instance decLT (a b : C4TimeMilliseconds) : Decidable (a < b) :=
  inferInstanceAs (Decidable (lt a b = true))

instance decLE (a b : C4TimeMilliseconds) : Decidable (a ≤ b) :=
  inferInstanceAs (Decidable (lt b a = false))

end C4TimeMilliseconds

/-! ## Machine integers -/

/-- Conversion of an integer to `uint32_t`: reduction modulo `2^32`. -/
def toUInt32 (i : Int) : Nat := (i % 4294967296).toNat

/-! ## State -/

/-- The members of `C4ApplicationGameTimer`. `iDelay` is the wake delay of the
base class `CStdMultimediaTimerProc`: the value last handed to its constructor
or to `SetDelay`. The other three are the members initialised by the
constructor in `C4Application.cpp`. -/
structure C4ApplicationGameTimer where
  iDelay : Int
  tLastGameTick : C4TimeMilliseconds
  iGameTickDelay : Nat
  iExtraGameTickDelay : Nat
  deriving DecidableEq, Repr

/-- The members of the global `Game` that `Execute` reads or writes:
`Game.GameGo`, `Game.DoSkipFrame` and `Game.Parameters.AutoFrameSkip`. -/
structure C4Game where
  GameGo : Bool
  DoSkipFrame : Bool
  AutoFrameSkip : Bool
  deriving DecidableEq, Repr

/-- The state a timer wake works on: the timer object and the global `Game`. -/
structure World where
  Timer : C4ApplicationGameTimer
  Game : C4Game
  deriving DecidableEq, Repr

/-- The two calls `Execute` makes into the application. -/
inductive Call where
  | GameTick : Call
  | Draw : Call
  deriving DecidableEq, Repr

/-- The effect of `Application.GameTick()` and `Application.Draw()` on the
modelled state. Both are arbitrary: they run the whole engine. -/
structure Collaborators where
  GameTick : World → World
  Draw : World → World

/-- What one call of `Execute` observes from outside: the result of the base
class gate `CheckAndReset()`, and the three readings of
`C4TimeMilliseconds::Now()` (on entry, before `Draw`, after `Draw`). -/
structure Wake where
  CheckAndReset : Bool
  tNow : Int
  tPreGfxTime : Int
  tPostGfxTime : Int
  deriving DecidableEq, Repr

namespace C4ApplicationGameTimer

/-- The constructor: `CStdMultimediaTimerProc(26)`,
`tLastGameTick(C4TimeMilliseconds::NegativeInfinity)`, `iGameTickDelay(28)`,
`iExtraGameTickDelay(0)`. -/
def new : C4ApplicationGameTimer :=
  { iDelay := 26
    tLastGameTick := C4TimeMilliseconds.NegativeInfinity
    iGameTickDelay := 28
    iExtraGameTickDelay := 0 }

/-- The method `C4ApplicationGameTimer::SetGameTickDelay(uint32_t iDelay)`.
`MaxRefreshDelay` is the configuration value `Config.Graphics.MaxRefreshDelay`,
an integer that the code converts with `uint32_t(...)` for the comparison and
passes as it is to `SetDelay`. -/
def SetGameTickDelay (MaxRefreshDelay : Int) (t : C4ApplicationGameTimer) (iDelay : Nat) :
    C4ApplicationGameTimer :=
  let iDelay := iDelay % 4294967296
  -- Remember delay
  let t := { t with iGameTickDelay := iDelay }
  -- Smaller than minimum refresh delay?
  if iDelay < toUInt32 MaxRefreshDelay then
    -- Set critical timer; no additional breaking needed
    { t with iDelay := (iDelay : Int), iExtraGameTickDelay := 0 }
  else
    -- Set critical timer; slow down game tick
    { t with iDelay := MaxRefreshDelay, iExtraGameTickDelay := iDelay }

/-- The condition of the `// Execute` block:
`tNow >= tLastGameTick + iExtraGameTickDelay || Game.GameGo`. -/
def tickDue (tNow : Int) (w : World) : Bool :=
  C4TimeMilliseconds.ge (C4TimeMilliseconds.ms tNow)
      (w.Timer.tLastGameTick.plus (w.Timer.iExtraGameTickDelay : Int))
    || w.Game.GameGo

/-- The first statement inside the `// Execute` block: advance `tLastGameTick`
by `iGameTickDelay`, or set it to `tNow` when `iGameTickDelay` is zero. -/
def advance (tNow : Int) (t : C4ApplicationGameTimer) : C4ApplicationGameTimer :=
  if t.iGameTickDelay ≠ 0 then
    { t with tLastGameTick := t.tLastGameTick.plus (t.iGameTickDelay : Int) }
  else
    { t with tLastGameTick := C4TimeMilliseconds.ms tNow }

/-- The second statement (`// Compensate if things get too slow`):
`if (tNow > tLastGameTick + iGameTickDelay)
   tLastGameTick += (tNow - tLastGameTick) / 2;` with the truncating division
of C++. -/
def compensate (tNow : Int) (t : C4ApplicationGameTimer) : C4ApplicationGameTimer :=
  if C4TimeMilliseconds.gt (C4TimeMilliseconds.ms tNow)
      (t.tLastGameTick.plus (t.iGameTickDelay : Int)) then
    let half := Int.tdiv (C4TimeMilliseconds.minus (C4TimeMilliseconds.ms tNow) t.tLastGameTick) 2
    { t with tLastGameTick := t.tLastGameTick.plus half }
  else t

/-- The `// Execute` block of `Execute`: when the tick is due, update
`tLastGameTick` and call `Application.GameTick()`. Returns the state and the
calls made. -/
def tickStage (c : Collaborators) (k : Wake) (w : World) : World × List Call :=
  if tickDue k.tNow w then
    (c.GameTick { w with Timer := compensate k.tNow (advance k.tNow w.Timer) }, [Call.GameTick])
  else
    (w, [])

/-- The `// Draw` block of `Execute`: unless `Game.DoSkipFrame` is set, call
`Application.Draw()` and set `Game.DoSkipFrame` to
`Game.Parameters.AutoFrameSkip && (tPreGfxTime + iGameTickDelay < Now())`;
otherwise clear `Game.DoSkipFrame`. -/
def drawStage (c : Collaborators) (k : Wake) (w : World) : World × List Call :=
  if !w.Game.DoSkipFrame then
    let w1 := c.Draw w
    let tPreGfxTime := C4TimeMilliseconds.ms k.tPreGfxTime
    let skip := w1.Game.AutoFrameSkip &&
      C4TimeMilliseconds.lt (tPreGfxTime.plus (w1.Timer.iGameTickDelay : Int))
        (C4TimeMilliseconds.ms k.tPostGfxTime)
    ({ w1 with Game := { w1.Game with DoSkipFrame := skip } }, [Call.Draw])
  else
    ({ w with Game := { w.Game with DoSkipFrame := false } }, [])

/-- The method `C4ApplicationGameTimer::Execute`: return at once when `CheckAndReset()`
fails, otherwise run the `// Execute` block and then the `// Draw` block.
Returns the state and the calls made, in order. -/
def Execute (c : Collaborators) (k : Wake) (w : World) : World × List Call :=
  if !k.CheckAndReset then (w, [])
  else
    let r := tickStage c k w
    let s := drawStage c k r.1
    (s.1, r.2 ++ s.2)

/-- A run of `Execute` over a list of wakes, oldest first. -/
def runWakes (c : Collaborators) : List Wake → World → World
  | [], w => w
  | k :: ks, w => runWakes c ks (Execute c k w).1

/-- One operation on the game timer: a call of `SetGameTickDelay` or a wake
(a call of `Execute`). -/
inductive Op where
  | SetGameTickDelay (iDelay : Nat) : Op
  | Execute (k : Wake) : Op
  deriving DecidableEq, Repr

/-- The state after one operation. -/
def step (MaxRefreshDelay : Int) (c : Collaborators) : Op → World → World
  | Op.SetGameTickDelay iDelay, w =>
      { w with Timer := SetGameTickDelay MaxRefreshDelay w.Timer iDelay }
  | Op.Execute k, w => (Execute c k w).1

/-- The state after a list of operations, oldest first. -/
def run (MaxRefreshDelay : Int) (c : Collaborators) : List Op → World → World
  | [], w => w
  | o :: os, w => run MaxRefreshDelay c os (step MaxRefreshDelay c o w)

end C4ApplicationGameTimer

/-! ## Frame conditions on the collaborators -/

/-- Neither `Application.GameTick()` nor `Application.Draw()` writes
`tLastGameTick`: the member is written only by the constructor and by
`Execute` itself. -/
def KeepsLastGameTick (c : Collaborators) : Prop :=
  ∀ w, (c.GameTick w).Timer.tLastGameTick = w.Timer.tLastGameTick ∧
    (c.Draw w).Timer.tLastGameTick = w.Timer.tLastGameTick

/-- Neither collaborator changes the timer at all: in addition to
`KeepsLastGameTick`, no `SetGameTickDelay` happens during the calls. -/
def KeepsTimer (c : Collaborators) : Prop :=
  ∀ w, (c.GameTick w).Timer = w.Timer ∧ (c.Draw w).Timer = w.Timer

/-- Neither collaborator writes `Game.GameGo`. -/
def KeepsGameGo (c : Collaborators) : Prop :=
  ∀ w, (c.GameTick w).Game.GameGo = w.Game.GameGo ∧ (c.Draw w).Game.GameGo = w.Game.GameGo

/-- The call `Application.GameTick()` does not write `Game.DoSkipFrame`. -/
def TickKeepsDoSkipFrame (c : Collaborators) : Prop :=
  ∀ w, (c.GameTick w).Game.DoSkipFrame = w.Game.DoSkipFrame

/-- Collaborators without any effect on the modelled state. -/
def idle : Collaborators := { GameTick := fun w => w, Draw := fun w => w }

/-! ## Application lifecycle -/

/-- The lifecycle enumeration, with the seven values that
`C4Application::GameTick` switches on. -/
inductive C4AppState where
  | C4AS_None : C4AppState
  | C4AS_PreInit : C4AppState
  | C4AS_Startup : C4AppState
  | C4AS_StartGame : C4AppState
  | C4AS_Game : C4AppState
  | C4AS_AfterGame : C4AppState
  | C4AS_Quit : C4AppState
  deriving DecidableEq, Repr

/-- Modelled from the spec: the string buffer class of the member
`NextMission`, whose declaration is not part of the sources at hand. The spec
describes the pending mission as an optional string: it is absent after
`Clear()` and present after `Copy(...)`, `if (NextMission)` tests that it is
present, and `getData()` is the string. -/
abbrev StrBuf := Option String

/-- The state the lifecycle methods of `C4Application` work on. First the
members of `C4Application` itself (`isEditor` as a truth value,
`pGamePadControl` as "not NULL"). Then the members of the global `Game` that
the methods read or write, the flag `C4GameLobby::UserAbort`, and the
configuration values they read (`Config.fConfigLoaded`,
`Config.Graphics.Windowed`, `Config.Graphics.ShowStartupMessages`,
`Config.Sound.FEMusic`, `Config.General.DefRec`). -/
structure AppWorld where
  isEditor : Bool
  QuitAfterGame : Bool
  AppState : C4AppState
  NextMission : StrBuf
  pGamePadControl : Bool
  pGameTimer : Option C4ApplicationGameTimer
  IsRunning : Bool
  fQuitWithError : Bool
  fLobby : Bool
  fObserve : Bool
  NetworkActive : Bool
  Record : Bool
  UserAbort : Bool
  fConfigLoaded : Bool
  Windowed : Int
  ShowStartupMessages : Bool
  FEMusic : Bool
  DefRec : Bool
  deriving DecidableEq, Repr

/-- The calls the lifecycle methods make into code outside
`C4Application.cpp`. Calls that take a file name carry it; other arguments
are left out. -/
inductive Ext where
  | ConfigSave : Ext
  | StartupUnload : Ext
  | ClearFonts : Ext
  | AbstractAppQuit : Ext
  | HasScenario : Ext
  | MessageBoardInit : Ext
  | SetInitProgress : Ext
  | InitLoaderScreen : Ext
  | LogFatal : Ext
  | GamePreInit : Ext
  | MusicInit : Ext
  | Log : Ext
  | SoundInit : Ext
  | MusicPlay : Ext
  | InitStartup : Ext
  | SoundExecute : Ext
  | MusicExecute : Ext
  | CloseStartup : Ext
  | GameInit : Ext
  | SetVideoMode : Ext
  | GameClear : Ext
  | GameExecute : Ext
  | GamePadExecute : Ext
  | SetScenarioFilename (szFilename : String) : Ext
  | ProcessInput (szCmd : String) : Ext
  deriving DecidableEq, Repr

/-- The behaviour of the outside code: for each call, the state it leaves
and the truth value it returns (ignored for calls without a result). It is
arbitrary: a call may re-enter the application. -/
abbrev Env := Ext → AppWorld → AppWorld × Bool

/-- A lifecycle method in progress: the current state and the outside calls
made so far, each with the `AppState` that was current when it was made. -/
structure Run where
  w : AppWorld
  log : List (Ext × C4AppState)

/-- Make one outside call: log it with the current `AppState`, take over the
state it leaves, and return its result. -/
def Run.call (e : Env) (x : Ext) (r : Run) : Run × Bool :=
  ({ w := (e x r.w).1, log := r.log ++ [(x, r.w.AppState)] }, (e x r.w).2)

/-- Assignment to `AppState`. -/
def Run.setAppState (a : C4AppState) (r : Run) : Run :=
  { r with w := { r.w with AppState := a } }

namespace C4Application

open C4AppState

/-- The method `C4Application::FullScreenMode`. -/
def FullScreenMode (w : AppWorld) : Bool :=
  if w.isEditor then false
  else if w.Windowed = 0 then true
  else if w.Windowed = 2 && w.IsRunning then true
  else false

/-- The method `C4Application::SetNextMission`: copy the file name, or clear
`NextMission` when the pointer is NULL. The replacement of the alternative
directory separator in the copy is kept as the parameter `fixSlashes`. -/
def SetNextMission (fixSlashes : String → String) (szMissionFilename : Option String)
    (r : Run) : Run :=
  match szMissionFilename with
  | some f => { r with w := { r.w with NextMission := some (fixSlashes f) } }
  | none => { r with w := { r.w with NextMission := none } }

/-- The method `C4Application::Quit`. -/
def Quit (e : Env) (r : Run) : Run :=
  -- Save config if there was no loading error
  let r := if r.w.fConfigLoaded then (r.call e Ext.ConfigSave).1 else r
  -- make sure startup data is unloaded
  let r := (r.call e Ext.StartupUnload).1
  -- fonts are loaded at start and never unloaded
  let r := (r.call e Ext.ClearFonts).1
  -- quit app
  let r := (r.call e Ext.AbstractAppQuit).1
  r.setAppState C4AS_Quit

/-- The method `C4Application::OpenGame`. -/
def OpenGame (e : Env) (fixSlashes : String → String) (scenario : Option String) (r : Run) :
    Run :=
  if r.w.AppState = C4AS_Startup then
    let r := match scenario with
      | some f => (r.call e (Ext.SetScenarioFilename f)).1
      | none => r
    r.setAppState C4AS_StartGame
  else
    let r := SetNextMission fixSlashes scenario r
    r.setAppState C4AS_AfterGame

/-- The method `C4Application::QuitGame`. -/
def QuitGame (e : Env) (r : Run) : Run :=
  -- reinit desired? Do restart
  if !r.w.QuitAfterGame || r.w.NextMission.isSome then
    r.setAppState C4AS_AfterGame
  else
    Quit e r

/-- The first part of `C4Application::PreInit`, up to the loader screen:
returns `false` in the second component when the method returns `false`
there. -/
def PreInitLoader (e : Env) (fUseStartupDialog : Bool) (r : Run) : Run × Bool :=
  -- Startup message board
  let r := if !r.w.isEditor && (r.w.ShowStartupMessages || r.w.NetworkActive) then
      (r.call e Ext.MessageBoardInit).1
    else r
  let r := (r.call e Ext.SetInitProgress).1
  -- init loader
  if fUseStartupDialog && !r.w.isEditor then
    let o := r.call e Ext.InitLoaderScreen
    if !o.2 then ((o.1.call e Ext.LogFatal).1, false) else (o.1, true)
  else (r, true)

/-- The middle part of `C4Application::PreInit`, from `Game.PreInit()` to the
last `Game.SetInitProgress`: returns `false` in the second component when
`Game.PreInit()` fails. -/
def PreInitSystems (e : Env) (fUseStartupDialog : Bool) (r : Run) : Run × Bool :=
  let r := (r.call e Ext.SetInitProgress).1
  let o := r.call e Ext.GamePreInit
  if !o.2 then (o.1, false)
  else
    -- Music
    let m := o.1.call e Ext.MusicInit
    let r := if !m.2 then (m.1.call e Ext.Log).1 else m.1
    let r := (r.call e Ext.SetInitProgress).1
    -- Sound
    let s := r.call e Ext.SoundInit
    let r := if !s.2 then (s.1.call e Ext.Log).1 else s.1
    -- Play some music!
    let r := if fUseStartupDialog && !r.w.isEditor && r.w.FEMusic then
        (r.call e Ext.MusicPlay).1
      else r
    ((r.call e Ext.SetInitProgress).1, true)

/-- The last part of `C4Application::PreInit`: the choice between
`C4AS_Startup` and `C4AS_StartGame`. -/
def PreInitState (e : Env) (fUseStartupDialog : Bool) (r : Run) : Run :=
  if fUseStartupDialog then
    let r := r.setAppState C4AS_Startup
    -- default record?
    let r := { r with w := { r.w with Record := r.w.Record || r.w.DefRec } }
    -- get game startup parameters by startup dialog
    if !r.w.isEditor then (r.call e Ext.InitStartup).1 else r
  else
    -- directly launch scenario / network game
    r.setAppState C4AS_StartGame

/-- The method `C4Application::PreInit`; the second component is its return
value. -/
def PreInit (e : Env) (r : Run) : Run × Bool :=
  -- startup dialog: Only use if no next mission has been provided
  let h := r.call e Ext.HasScenario
  let fUseStartupDialog := !h.2
  let l := PreInitLoader e fUseStartupDialog h.1
  if !l.2 then (l.1, false)
  else
    let s := PreInitSystems e fUseStartupDialog l.1
    if !s.2 then (s.1, false)
    else (PreInitState e fUseStartupDialog s.1, true)

/-- The case `C4AS_StartGame` of `C4Application::GameTick`. -/
def GameTickStartGame (e : Env) (r : Run) : Run :=
  -- immediate progress to next state
  let r := (r.call e Ext.CloseStartup).1
  let r := r.setAppState C4AS_Game
  -- first-time game initialization
  let o := r.call e Ext.GameInit
  if !o.2 then
    -- set error flag (unless this was a lobby user abort)
    let r := if !o.1.w.UserAbort then
        { o.1 with w := { o.1.w with fQuitWithError := true } }
      else o.1
    -- no start: Regular QuitGame
    QuitGame e r
  else if o.1.w.Windowed = 2 && FullScreenMode o.1.w then
    (o.1.call e Ext.SetVideoMode).1
  else o.1

/-- The case `C4AS_AfterGame` of `C4Application::GameTick`. -/
def GameTickAfterGame (e : Env) (r : Run) : Run :=
  -- stop game
  let r := (r.call e Ext.GameClear).1
  let r := if r.w.Windowed = 2 && !r.w.NextMission.isSome && !r.w.isEditor then
      (r.call e Ext.SetVideoMode).1
    else r
  let r := r.setAppState C4AS_PreInit
  -- if a next mission is desired, set to start it
  match r.w.NextMission with
  | some m =>
    let r := (r.call e (Ext.SetScenarioFilename m)).1
    { r with w := { r.w with fLobby := r.w.NetworkActive, fObserve := false,
                             NextMission := none } }
  | none => r

/-- The case `C4AS_Game` of `C4Application::GameTick`. -/
def GameTickGame (e : Env) (r : Run) : Run :=
  -- Game
  let r := if r.w.IsRunning then (r.call e Ext.GameExecute).1 else r
  -- Sound
  let r := (r.call e Ext.SoundExecute).1
  let r := (r.call e Ext.MusicExecute).1
  -- Gamepad
  if r.w.pGamePadControl then (r.call e Ext.GamePadExecute).1 else r

/-- The method `C4Application::GameTick`. In `C4AS_None` the code only
asserts that the state is not `C4AS_None`; the case is a no-op here. -/
def GameTick (e : Env) (r : Run) : Run :=
  match r.w.AppState with
  | C4AS_None => r
  | C4AS_Quit => r
  | C4AS_PreInit =>
    let p := PreInit e r
    if !p.2 then Quit e p.1 else p.1
  | C4AS_Startup =>
    let r := (r.call e Ext.SoundExecute).1
    (r.call e Ext.MusicExecute).1
  | C4AS_StartGame => GameTickStartGame e r
  | C4AS_AfterGame => GameTickAfterGame e r
  | C4AS_Game => GameTickGame e r

/-- The run at the moment a `C4AS_StartGame` dispatch calls `Game.Init()`:
after `C4Startup::CloseStartup()` and the assignment `AppState = C4AS_Game`. -/
def beforeGameInit (e : Env) (r : Run) : Run :=
  ((r.call e Ext.CloseStartup).1).setAppState C4AS_Game

/-- The run right after `Game.Init()` returned in a `C4AS_StartGame`
dispatch. -/
def afterGameInit (e : Env) (r : Run) : Run :=
  ((beforeGameInit e r).call e Ext.GameInit).1

/-- The value `Game.Init()` returns in a `C4AS_StartGame` dispatch. -/
def gameInitResult (e : Env) (r : Run) : Bool :=
  ((beforeGameInit e r).call e Ext.GameInit).2

/-- The method `C4Application::SetGameTickDelay(int iDelay)` on the member
`pGameTimer`: nothing without a timer, otherwise the timer's
`SetGameTickDelay` with `iDelay` converted to its `uint32_t` parameter. -/
def SetGameTickDelay (MaxRefreshDelay : Int) (pGameTimer : Option C4ApplicationGameTimer)
    (iDelay : Int) : Option C4ApplicationGameTimer :=
  match pGameTimer with
  | none => none
  | some t => some (C4ApplicationGameTimer.SetGameTickDelay MaxRefreshDelay t (toUInt32 iDelay))

end C4Application

/-- The outside calls write none of the members of `C4Application` that the
lifecycle methods read (`AppState`, `QuitAfterGame`, `NextMission`,
`isEditor`): no call re-enters the application to change them. -/
def KeepsApplication (e : Env) : Prop :=
  ∀ x w, (e x w).1.AppState = w.AppState ∧ (e x w).1.QuitAfterGame = w.QuitAfterGame ∧
    (e x w).1.NextMission = w.NextMission ∧ (e x w).1.isEditor = w.isEditor

/-- The outside calls do not write `Game.fQuitWithError`. -/
def KeepsQuitWithError (e : Env) : Prop :=
  ∀ x w, (e x w).1.fQuitWithError = w.fQuitWithError

/-- Outside code without effect on the modelled state, every call
succeeding. -/
def calm : Env := fun _ w => (w, true)

/-- Outside code without effect on the modelled state in which the calls
listed in `failing` return `false` and every other call succeeds. -/
def failingAt (failing : List Ext) : Env := fun x w => (w, !failing.contains x)

/-- A state to start examples from: the members as the constructor of
`C4Application` sets them, no game running, configuration loaded, windowed
mode 0. -/
def AppWorld.initial : AppWorld :=
  { isEditor := false
    QuitAfterGame := false
    AppState := C4AppState.C4AS_None
    NextMission := none
    pGamePadControl := false
    pGameTimer := none
    IsRunning := false
    fQuitWithError := false
    fLobby := false
    fObserve := false
    NetworkActive := false
    Record := false
    UserAbort := false
    fConfigLoaded := true
    Windowed := 0
    ShowStartupMessages := false
    FEMusic := false
    DefRec := false }

/-! ## Commands typed at the application -/

namespace C4Application

open C4AppState

/-- The method `C4Application::OnCommand`. -/
def OnCommand (e : Env) (szCmd : String) (r : Run) : Run :=
  if r.w.AppState = C4AS_Game then
    (r.call e (Ext.ProcessInput szCmd)).1
  else if r.w.AppState = C4AS_Startup then
    let r := r.setAppState C4AS_PreInit
    (r.call e (Ext.SetScenarioFilename szCmd)).1
  else r

end C4Application

/-! ## Rank system -/

/-- Conversion of an integer to `int`: wrap to 32 bits in two's complement,
the result of `int` arithmetic that leaves the range. -/
def toInt32 (i : Int) : Int := (i + 2147483648) % 4294967296 - 2147483648

/-- The members of `C4RankSystem`. The buffer `szRankNames` is a list of
characters, NULL being `none`; the pointer arrays `pszRankNames` and
`pszRankExtensions` hold offsets into the buffer, in the order in which they
were stored (`Load` allocates them with `iRankNum` and `iRankExtNum` slots). -/
structure C4RankSystem where
  szRankNames : Option (List Char)
  pszRankNames : Option (List Nat)
  pszRankExtensions : Option (List Nat)
  iRankNum : Int
  iRankExtNum : Int
  RankBase : Int
  deriving DecidableEq, Repr

/-- What `GetRankName` returns, by the array elements it reads: the empty
`StdStrBuf()`, `sResult.Ref(pszRankNames[iRank])`, or
`sResult.Format(pszRankExtensions[iExtension], pszRankNames[iRank])`. -/
inductive RankNameResult where
  | empty : RankNameResult
  | simple (iRank : Int) : RankNameResult
  | extended (iExtension : Int) (iRank : Int) : RankNameResult
  deriving DecidableEq, Repr

/-- The helpers of the string library that `C4RankSystem::Load` calls, as
parameters: `SCharPos(c, s)` on a zero-terminated string, `SEqual(a, b)`, and
`sscanf(szValue, "%d", &RankBase)` as the new `RankBase` for a value string
and the old `RankBase`. -/
structure RankLib where
  SCharPos : Char → List Char → Int
  SEqual : List Char → List Char → Bool
  sscanf : List Char → Int → Int

/-- The zero-terminated string that starts at offset `p` of a buffer. -/
def cstr (buf : List Char) (p : Nat) : List Char :=
  (buf.drop p).takeWhile (fun ch => ch ≠ '\x00')

/-- The loop variables of the counting pass of `Load`. -/
structure CountState where
  pRank0 : Nat
  iRankNum : Int
  iRankExtNum : Int
  deriving DecidableEq, Repr

/-- The loop variables of the storing pass of `Load`: the buffer (settings
are cut at their `=`), the start of the current line, the pointers stored so
far and `RankBase`. -/
structure FillState where
  buf : List Char
  pRank0 : Nat
  names : List Nat
  exts : List Nat
  RankBase : Int
  deriving DecidableEq, Repr

namespace C4RankSystem

/-- The method `C4RankSystem::Clear`. -/
def Clear (s : C4RankSystem) : C4RankSystem :=
  { s with pszRankNames := none, pszRankExtensions := none, szRankNames := none,
           iRankNum := 0, iRankExtNum := 0 }

/-- The method `C4RankSystem::Default`; the character arrays `Register` and
`RankName` are not modelled. `iRankNum` is not assigned by the code and is
taken as 0. -/
def Default : C4RankSystem :=
  { szRankNames := none, pszRankNames := none, pszRankExtensions := none,
    iRankNum := 0, iRankExtNum := 0, RankBase := 1000 }

/-- The part of `GetRankName` after the overflow check: the choice between
an extended and a simple rank. -/
def rankParts (s : C4RankSystem) (iRank : Int) : RankNameResult :=
  if iRank ≥ s.iRankNum then
    -- extended rank composed of two parts
    let iExtension := toInt32 (Int.tdiv iRank s.iRankNum - 1)
    RankNameResult.extended iExtension (Int.tmod iRank s.iRankNum)
  else
    -- simple rank
    RankNameResult.simple iRank

/-- The method `C4RankSystem::GetRankName`, without the registry fallback
that is compiled under `_WIN32` only. The product
`iRankNum*(iRankExtNum+1)` is an `int` product. -/
def GetRankName (s : C4RankSystem) (iRank : Int) (fReturnLastIfOver : Bool) :
    RankNameResult :=
  if iRank < 0 then RankNameResult.empty
  -- if a new-style ranklist is loaded, seek there
  else if s.pszRankNames.isSome then
    if s.iRankNum ≤ 0 then RankNameResult.empty
    else
      let limit := toInt32 (s.iRankNum * toInt32 (s.iRankExtNum + 1))
      -- overflow check
      if iRank ≥ limit then
        -- rank undefined: Fallback to last rank
        if !fReturnLastIfOver then RankNameResult.empty
        else rankParts s (toInt32 (limit - 1))
      else rankParts s iRank
  else RankNameResult.empty

/-- The reads of `GetRankName` stay inside the arrays: `pszRankNames` is read
at an index in `[0, iRankNum)` and `pszRankExtensions` at an index in
`[0, iRankExtNum)`. -/
def ReadsInRange (s : C4RankSystem) : RankNameResult → Prop
  | RankNameResult.empty => True
  | RankNameResult.simple i => 0 ≤ i ∧ i < s.iRankNum
  | RankNameResult.extended x i => 0 ≤ x ∧ x < s.iRankExtNum ∧ 0 ≤ i ∧ i < s.iRankNum

instance decReadsInRange (s : C4RankSystem) (r : RankNameResult) :
    Decidable (ReadsInRange s r) := by
  cases r <;> unfold ReadsInRange <;> infer_instance

/-- One round of the counting loop of `Load`, at index `i`
(`pPos = szRankNames + i`). -/
def countStep (lib : RankLib) (buf : List Char) (st : CountState) (i : Nat) : CountState :=
  if buf.getD i '\x00' = '\x00' then
    -- zero-character found: content?
    let st := if st.pRank0 < i then
        -- rank extension?
        if buf.getD st.pRank0 '\x00' = '*' then { st with iRankExtNum := st.iRankExtNum + 1 }
        -- no comment?
        else if buf.getD st.pRank0 '\x00' ≠ '#' then
          -- no setting?
          if lib.SCharPos '=' (cstr buf st.pRank0) < 0 then
            -- count as name!
            { st with iRankNum := st.iRankNum + 1 }
          else st
        else st
      else st
    -- advance pos
    { st with pRank0 := i + 1 }
  else st

/-- The body of the storing loop of `Load` for a line that is a setting: cut
it at the `=` and read `RankBase` when its name is `Base`. -/
def fillSetting (lib : RankLib) (st : FillState) (iEqPos : Int) : FillState :=
  -- get name and value of setting
  let buf := st.buf.set (st.pRank0 + iEqPos.toNat) '\x00'
  let szValue := st.pRank0 + iEqPos.toNat + 1
  if lib.SEqual (cstr buf st.pRank0) "Base".toList then
    -- get rankbase
    { st with buf := buf, RankBase := lib.sscanf (cstr buf szValue) st.RankBase }
  else { st with buf := buf }

/-- One round of the storing loop of `Load`, at index `i`. -/
def fillStep (lib : RankLib) (st : FillState) (i : Nat) : FillState :=
  if st.buf.getD i '\x00' = '\x00' then
    -- zero-character found: content?
    let st := if st.pRank0 < i then
        -- extension?
        if st.buf.getD st.pRank0 '\x00' = '*' then
          { st with exts := st.exts ++ [st.pRank0 + 1] }
        -- no comment?
        else if st.buf.getD st.pRank0 '\x00' ≠ '#' then
          -- check if it's a setting
          let iEqPos := lib.SCharPos '=' (cstr st.buf st.pRank0)
          if iEqPos ≥ 0 then fillSetting lib st iEqPos
          -- it's a name! store it
          else { st with names := st.names ++ [st.pRank0] }
        else st
      else st
    -- advance pos
    { st with pRank0 := i + 1 }
  else st

/-- The buffer `Load` works on: the file data with every line break (0x0A,
0x0D) replaced by a zero character, and the terminating zero at index
`iSize`. -/
def loadBuffer (data : List Char) : List Char :=
  data.map (fun ch => if ch = '\n' ∨ ch = '\r' then '\x00' else ch) ++ ['\x00']

/-- The counting pass of `Load`: the loop `for (i=0; i<iSize; ++i,++pPos)`. -/
def countPass (lib : RankLib) (buf : List Char) (iSize : Nat) : CountState :=
  (List.range iSize).foldl (countStep lib buf) { pRank0 := 0, iRankNum := 0, iRankExtNum := 0 }

/-- The storing pass of `Load`: the second loop
`for (i=0; i<iSize; ++i,++pPos)`. -/
def fillPass (lib : RankLib) (buf : List Char) (iSize : Nat) (RankBase : Int) : FillState :=
  (List.range iSize).foldl (fillStep lib)
    { buf := buf, pRank0 := 0, names := [], exts := [], RankBase := RankBase }

/-- The method `C4RankSystem::Load`. `data` is what `Ranks.LoadEx` read
(`none` when it fails), `iSize` its length. The first component is the return
value. -/
def Load (lib : RankLib) (data : Option (List Char)) (DefRankBase : Int)
    (s : C4RankSystem) : Bool × C4RankSystem :=
  -- clear any loaded rank names
  let s := Clear s
  match data with
  | none => (false, s)
  | some d =>
    let iSize := d.length
    if iSize = 0 then (false, s)
    else
      -- replace line breaks by zero-chars
      let buf := loadBuffer d
      -- count names
      let cnt := countPass lib buf iSize
      -- safety
      if cnt.iRankNum = 0 then (false, Clear s)
      else
        -- fill list with names
        let f := fillPass lib buf iSize DefRankBase
        -- check rankbase
        let RankBase := if f.RankBase = 0 then 1000 else f.RankBase
        (true,
          { szRankNames := some f.buf
            pszRankNames := some f.names
            pszRankExtensions := if cnt.iRankExtNum ≠ 0 then some f.exts else none
            iRankNum := cnt.iRankNum
            iRankExtNum := cnt.iRankExtNum
            RankBase := RankBase })

/-- The rank names a loaded list holds, as strings: the zero-terminated
strings at the stored pointers. -/
def storedNames (s : C4RankSystem) : List String :=
  match s.szRankNames, s.pszRankNames with
  | some buf, some ps => ps.map (fun q => String.mk (cstr buf q))
  | _, _ => []

end C4RankSystem

/-! ### Rank files as lists of lines -/

/-- A line of a rank file: characters other than the line breaks 0x0A, 0x0D
and the zero character. -/
def IsLine (l : List Char) : Prop := ∀ ch ∈ l, ch ≠ '\n' ∧ ch ≠ '\r' ∧ ch ≠ '\x00'

/-- The rank file that consists of the given lines, each followed by the line
break 0x0A. -/
def fileOfLines : List (List Char) → List Char
  | [] => []
  | l :: ls => l ++ '\n' :: fileOfLines ls

/-- The given lines, each followed by a zero character: what the buffer of
`Load` holds for `fileOfLines`. -/
def zeroTerminated : List (List Char) → List Char
  | [] => []
  | l :: ls => l ++ '\x00' :: zeroTerminated ls

/-- A line that starts with `*`: a rank extension. -/
def isExtLine (l : List Char) : Bool := l.head? = some '*'

/-- A line that is not empty, starts with neither `*` nor `#` and has no `=`
according to `SCharPos`: a rank name. -/
def isNameLine (lib : RankLib) (l : List Char) : Bool :=
  !l.isEmpty && l.head? != some '*' && l.head? != some '#' && decide (lib.SCharPos '=' l < 0)

/-- The two passes of `Load` agree after the rounds `0 .. k-1`: the same
start of the current line, not beyond `k`; as many pointers stored as lines
counted; and the buffer of the storing pass still equal to the original one
from the start of the current line on. -/
def PassesAgree (buf : List Char) (k : Nat) (cs : CountState) (fs : FillState) : Prop :=
  fs.pRank0 = cs.pRank0 ∧ cs.pRank0 ≤ k ∧
    (fs.names.length : Int) = cs.iRankNum ∧ (fs.exts.length : Int) = cs.iRankExtNum ∧
    fs.buf.length = buf.length ∧
    ∀ j, cs.pRank0 ≤ j → fs.buf.getD j '\x00' = buf.getD j '\x00'

/-- A rank file of `n` lines "a" followed by `m` lines "*". -/
def namesThenExtensions (n m : Nat) : List (List Char) :=
  List.replicate n ['a'] ++ List.replicate m ['*']

/-- The position of the first occurrence of a character in a list, -1 when
there is none. -/
def firstPos (c : Char) : List Char → Int
  | [] => -1
  | x :: xs => if x = c then 0 else if firstPos c xs < 0 then -1 else firstPos c xs + 1

/-- The value of a run of decimal digits that follows the digits read so
far. -/
def digitsValue : List Char → Int → Int
  | [], acc => acc
  | x :: xs, acc => if x.isDigit then digitsValue xs (acc * 10 + (x.toNat - 48 : Nat)) else acc

/-- The C library function `atoi` on a list of characters: leading white
space, an optional sign, then decimal digits; 0 when no digit follows. -/
def atoiChars (l : List Char) : Int :=
  match l.dropWhile (fun ch => ch = ' ' ∨ ch = '\t' ∨ ch = '\n' ∨ ch = '\r') with
  | '-' :: ds => - digitsValue ds 0
  | '+' :: ds => digitsValue ds 0
  | ds => digitsValue ds 0

/-- The helpers used in the examples of `Load`: `SCharPos` as the first
position of the character, `SEqual` as equality, `sscanf` with `%d` as the
decimal number at the start of the string, the old value when there is
none. -/
def stdRankLib : RankLib :=
  { SCharPos := firstPos
    SEqual := fun a b => decide (a = b)
    sscanf := fun v old =>
      match v.dropWhile (fun ch => ch = ' ') with
      | [] => old
      | x :: xs => if x.isDigit ∨ x = '-' ∨ x = '+' then atoiChars (x :: xs) else old }

/-! ## Command line options -/

/-- The helpers of the string library and the constants that the option
switch of `ParseCommandLine` uses, as parameters: `SCopy(src, dst, max)` as
the string that ends up in `dst`, `SEqualNoCase`, the lengths `_MAX_PATH` and
`CFG_MaxString`, and the C library function `atoi`. -/
structure CmdLineLib where
  atoi : String → Int
  SCopy : String → Nat → String
  SEqualNoCase : String → String → Bool
  MAX_PATH : Nat
  CFG_MaxString : Nat

/-- The calls the option switch makes on other objects, with their
argument. -/
inductive CmdCall where
  | LogF (msg : String) (arg : String) : CmdCall
  | Log (msg : String) : CmdCall
  | SetPassword (arg : String) : CmdCall
  | CommentCopyValidated (arg : String) : CmdCall
  | SetStartScreen (arg : String) : CmdCall
  | RelocAddPath (arg : String) : CmdCall
  | SetScenarioParameter (arg : String) : CmdCall
  deriving DecidableEq, Repr

/-- The variables the option loop of `ParseCommandLine` writes: members of
`C4Application` (`isEditor`, `CheckForUpdates`), of `Game`, of
`Config.General` (`DebugRecExternalFile`, `DebugRec`, `DebugRecWrite`,
`LanguageEx`) and of `Config.Network` (`NoRuntimeJoin`, `LeagueServerSignUp`,
`MasterServerSignUp`, `PortTCP`, `PortUDP`), and the calls made. -/
structure CmdLineState where
  isEditor : Int
  CheckForUpdates : Int
  DebugWait : Int
  NetworkActive : Bool
  fLobby : Bool
  iLobbyTimeout : Int
  fObserve : Bool
  DirectJoinAddress : String
  Record : Bool
  RecordDumpFile : String
  RecordStream : String
  DebugPort : Int
  DebugPassword : String
  DebugHost : String
  DebugRecExternalFile : String
  DebugRec : Int
  DebugRecWrite : Int
  LanguageEx : String
  NoRuntimeJoin : Int
  LeagueServerSignUp : Int
  MasterServerSignUp : Int
  PortTCP : Int
  PortUDP : Int
  calls : List CmdCall
  deriving DecidableEq, Repr

/-- One result of `getopt_long`: the return value 0 for a long option of the
table that has a flag variable (with the option's name), or the option
character with `optarg` (`none` for NULL). -/
inductive GetoptResult where
  | flag (name : String) : GetoptResult
  | opt (c : Char) (optarg : Option String) : GetoptResult
  deriving DecidableEq, Repr

namespace C4Application

/-- The assignment `getopt_long` itself makes for a long option with a flag
variable, by the table `long_options` of `ParseCommandLine`. -/
def setFlag (name : String) (s : CmdLineState) : CmdLineState :=
  if name = "editor" then { s with isEditor := 1 }
  else if name = "fullscreen" then { s with isEditor := 0 }
  else if name = "debugwait" then { s with DebugWait := 1 }
  else if name = "update" then { s with CheckForUpdates := 1 }
  else if name = "noruntimejoin" then { s with NoRuntimeJoin := 1 }
  else if name = "runtimejoin" then { s with NoRuntimeJoin := 0 }
  else if name = "noleague" then { s with LeagueServerSignUp := 0 }
  else if name = "league" then { s with LeagueServerSignUp := 1 }
  else if name = "nosignup" then { s with MasterServerSignUp := 0 }
  else if name = "signup" then { s with MasterServerSignUp := 1 }
  else s

/-- The statement of `case 't'`: `Config.Network.PortTCP = atoi(optarg)`. -/
def caseT (lib : CmdLineLib) (arg : String) (s : CmdLineState) : CmdLineState :=
  { s with PortTCP := lib.atoi arg }

/-- The cases `'K'` and `'w'` of the switch (`DebugRecWrite` 0 and 1). -/
def caseDebugRec (lib : CmdLineLib) (optarg : Option String) (fWrite : Bool)
    (s : CmdLineState) : CmdLineState :=
  let s := match optarg with
    | some a =>
      if a ≠ "" then
        { s with
          calls := s.calls ++ [CmdCall.LogF
            (if fWrite then "Writing to DebugRec file '%s'"
             else "Reading from DebugRec file '%s'") a]
          DebugRecExternalFile := lib.SCopy a lib.MAX_PATH }
      else
        { s with calls := s.calls ++ [CmdCall.Log
            (if fWrite then "Writing DebugRec to CtrlRec file in scenario record"
             else "Reading DebugRec from CtrlRec file in scenario record")] }
    | none =>
      { s with calls := s.calls ++ [CmdCall.Log
          (if fWrite then "Writing DebugRec to CtrlRec file in scenario record"
           else "Reading DebugRec from CtrlRec file in scenario record")] }
  { s with DebugRec := 1, DebugRecWrite := if fWrite then 1 else 0 }

/-- The body of `switch (c)` in `ParseCommandLine` for one option character.
An option declared with `required_argument` always comes with an `optarg`;
`arg` is that string. `case 'L'` has no `break` and runs on into
`case 't'`. -/
def switchOption (lib : CmdLineLib) (c : Char) (optarg : Option String) (s : CmdLineState) :
    CmdLineState :=
  let arg := optarg.getD ""
  -- Lobby
  if c = 'l' then
    let s := { s with fLobby := true }
    -- lobby timeout specified? (e.g. --lobby=120)
    match optarg with
    | some a =>
      let t := lib.atoi a
      { s with iLobbyTimeout := if t < 0 then 0 else t }
    | none => s
  else if c = 'o' then { s with fObserve := true }
  -- Direct join
  else if c = 'j' then
    { s with NetworkActive := true, DirectJoinAddress := lib.SCopy arg lib.MAX_PATH }
  else if c = 'K' then caseDebugRec lib optarg false s
  else if c = 'w' then caseDebugRec lib optarg true s
  else if c = 'r' then { s with Record := true }
  else if c = 'n' then { s with NetworkActive := true }
  else if c = 'N' then { s with NetworkActive := false }
  -- Language override by parameter
  else if c = 'L' then
    let s := { s with LanguageEx := lib.SCopy arg lib.CFG_MaxString }
    caseT lib arg s
  -- port overrides
  else if c = 't' then caseT lib arg s
  else if c = 'u' then { s with PortUDP := lib.atoi arg }
  -- network game password
  else if c = 'p' then { s with calls := s.calls ++ [CmdCall.SetPassword arg] }
  -- network game comment
  else if c = 'm' then { s with calls := s.calls ++ [CmdCall.CommentCopyValidated arg] }
  -- record dump
  else if c = 'R' then { s with RecordDumpFile := arg }
  -- record stream
  else if c = 'e' then { s with RecordStream := arg }
  -- startup start screen
  else if c = 's' then { s with calls := s.calls ++ [CmdCall.SetStartScreen arg] }
  -- additional read-only data path
  else if c = 'd' then { s with calls := s.calls ++ [CmdCall.RelocAddPath arg] }
  -- debug options
  else if c = 'D' then { s with DebugPort := lib.atoi arg }
  else if c = 'P' then { s with DebugPassword := arg }
  else if c = 'H' then { s with DebugHost := arg }
  -- set custom scenario parameter by command line
  else if c = 'S' then { s with calls := s.calls ++ [CmdCall.SetScenarioParameter arg] }
  -- debug configs
  else if c = 'h' then
    { s with NetworkActive := true, fLobby := true, PortTCP := 11112, PortUDP := 11113,
             MasterServerSignUp := 0, LeagueServerSignUp := 0 }
  else if c = 'c' then
    { s with NetworkActive := true, DirectJoinAddress := lib.SCopy "localhost" lib.MAX_PATH,
             fLobby := true,
             PortTCP := toInt32 (11112 + toInt32 (2 * toInt32 (lib.atoi arg + 1))),
             PortUDP := toInt32 (11113 + toInt32 (2 * toInt32 (lib.atoi arg + 1))) }
  -- '?': getopt_long already printed an error message
  else s

/-- One round of the option loop of `ParseCommandLine`: the effect of
`getopt_long` and of the `switch (c)` on its result. -/
def handleOption (lib : CmdLineLib) (s : CmdLineState) (g : GetoptResult) : CmdLineState :=
  match g with
  | GetoptResult.flag name =>
    let s := setFlag name s
    -- Signup
    let s := if lib.SEqualNoCase name "signup" then { s with NetworkActive := true } else s
    -- League
    if lib.SEqualNoCase name "league" then
      { s with NetworkActive := true, MasterServerSignUp := 1 }
    else s
  | GetoptResult.opt c optarg => switchOption lib c optarg s

/-- The option loop of `ParseCommandLine` on the results `getopt_long`
returns for the command line, with the assignments
`Game.NetworkActive = false; isEditor = 2;` before it and the two `if`
statements after it. -/
def ParseOptions (lib : CmdLineLib) (opts : List GetoptResult) (s : CmdLineState) :
    CmdLineState :=
  let s := { s with NetworkActive := false, isEditor := 2 }
  let s := opts.foldl (handleOption lib) s
  let s := if s.MasterServerSignUp = 0 then { s with LeagueServerSignUp := 0 } else s
  if s.fObserve || s.fLobby then { s with NetworkActive := true } else s

end C4Application

/-- The helpers used in the examples of the option loop: `atoi` of the C
library, `SCopy` as the first `max` characters, `SEqualNoCase` as equality of
the lower-case strings, `_MAX_PATH = 260` and `CFG_MaxString = 1024`. -/
def stdCmdLineLib : CmdLineLib :=
  { atoi := fun a => atoiChars a.toList
    SCopy := fun a n => String.mk (a.toList.take n)
    SEqualNoCase := fun a b => decide (a.toLower = b.toLower)
    MAX_PATH := 260
    CFG_MaxString := 1024 }

/-- A state of the variables before the command line is parsed: empty
strings, flags clear, the ports 11112 (TCP) and 11113 (UDP). -/
def CmdLineState.sample : CmdLineState :=
  { isEditor := 0, CheckForUpdates := 0, DebugWait := 0, NetworkActive := false,
    fLobby := false, iLobbyTimeout := 0, fObserve := false, DirectJoinAddress := "",
    Record := false, RecordDumpFile := "", RecordStream := "", DebugPort := 0,
    DebugPassword := "", DebugHost := "", DebugRecExternalFile := "", DebugRec := 0,
    DebugRecWrite := 0, LanguageEx := "", NoRuntimeJoin := 0, LeagueServerSignUp := 0,
    MasterServerSignUp := 0, PortTCP := 11112, PortUDP := 11113, calls := [] }

/-! ## Lemmas on clock readings -/

namespace C4TimeMilliseconds

@[simp] theorem lt_ms_ms (a b : Int) : lt (ms a) (ms b) = decide (a < b) := rfl

@[simp] theorem lt_inf_ms (b : Int) : lt NegativeInfinity (ms b) = true := rfl

@[simp] theorem lt_inf_right (a : C4TimeMilliseconds) : lt a NegativeInfinity = false := by
  cases a <;> rfl

@[simp] theorem plus_ms (a d : Int) : plus (ms a) d = ms (a + d) := rfl

@[simp] theorem plus_inf (d : Int) : plus NegativeInfinity d = NegativeInfinity := rfl

@[simp] theorem minus_ms_ms (a b : Int) : minus (ms a) (ms b) = a - b := rfl

theorem lt_def (a b : C4TimeMilliseconds) : a < b ↔ lt a b = true := Iff.rfl

theorem le_def (a b : C4TimeMilliseconds) : a ≤ b ↔ lt b a = false := Iff.rfl

@[simp] theorem ms_lt_ms (a b : Int) : ms a < ms b ↔ a < b := by
  simp [lt_def]

@[simp] theorem ms_le_ms (a b : Int) : ms a ≤ ms b ↔ a ≤ b := by
  simp [le_def]

@[simp] theorem inf_le (a : C4TimeMilliseconds) : NegativeInfinity ≤ a := by
  simp [le_def]

@[simp] theorem inf_lt_ms (b : Int) : NegativeInfinity < ms b := by
  simp [lt_def]

@[simp] theorem not_lt_inf (a : C4TimeMilliseconds) : ¬ a < NegativeInfinity := by
  simp [lt_def]

@[simp] theorem ms_le_inf (a : Int) : ¬ ms a ≤ NegativeInfinity := by
  simp [le_def]

theorem time_le_rfl (a : C4TimeMilliseconds) : a ≤ a := by
  cases a <;> simp

theorem time_le_trans {a b c : C4TimeMilliseconds} (h1 : a ≤ b) (h2 : b ≤ c) : a ≤ c := by
  cases a <;> cases b <;> cases c <;> simp_all
  omega

theorem not_lt_iff_le (a b : C4TimeMilliseconds) : ¬ a < b ↔ b ≤ a := by
  simp [lt_def, le_def]

theorem le_plus (a : C4TimeMilliseconds) {d : Int} (h : 0 ≤ d) : a ≤ plus a d := by
  cases a <;> simp
  exact h

end C4TimeMilliseconds

/-! ## One wake -/

namespace C4ApplicationGameTimer

open C4TimeMilliseconds

theorem tickDue_iff (tNow : Int) (w : World) :
    tickDue tNow w = true ↔
      (w.Timer.tLastGameTick.plus (w.Timer.iExtraGameTickDelay : Int) ≤ ms tNow ∨
        w.Game.GameGo = true) := by
  simp [tickDue, ge, le_def]

theorem tickStage_calls (c : Collaborators) (k : Wake) (w : World) :
    (tickStage c k w).2 = if tickDue k.tNow w then [Call.GameTick] else [] := by
  unfold tickStage
  split <;> rfl

theorem drawStage_calls (c : Collaborators) (k : Wake) (w : World) :
    (drawStage c k w).2 = if w.Game.DoSkipFrame then [] else [Call.Draw] := by
  unfold drawStage
  cases w.Game.DoSkipFrame <;> rfl

theorem Execute_calls (c : Collaborators) (k : Wake) (w : World)
    (hgate : k.CheckAndReset = true) :
    (Execute c k w).2 =
      (if tickDue k.tNow w then [Call.GameTick] else []) ++
        (if (tickStage c k w).1.Game.DoSkipFrame then [] else [Call.Draw]) := by
  simp [Execute, hgate, tickStage_calls, drawStage_calls]

theorem gameTick_mem_iff (c : Collaborators) (k : Wake) (w : World)
    (hgate : k.CheckAndReset = true) :
    Call.GameTick ∈ (Execute c k w).2 ↔ tickDue k.tNow w = true := by
  rw [Execute_calls c k w hgate]
  cases tickDue k.tNow w <;> cases (tickStage c k w).1.Game.DoSkipFrame <;> simp

theorem drawStage_last (c : Collaborators) (hc : KeepsLastGameTick c) (k : Wake) (w : World) :
    (drawStage c k w).1.Timer.tLastGameTick = w.Timer.tLastGameTick := by
  unfold drawStage
  cases w.Game.DoSkipFrame <;> simp [(hc w).2]

theorem tickStage_last (c : Collaborators) (hc : KeepsLastGameTick c) (k : Wake) (w : World) :
    (tickStage c k w).1.Timer.tLastGameTick =
      if tickDue k.tNow w then (compensate k.tNow (advance k.tNow w.Timer)).tLastGameTick
      else w.Timer.tLastGameTick := by
  unfold tickStage
  split
  · simp [(hc _).1]
  · rfl

theorem Execute_last (c : Collaborators) (hc : KeepsLastGameTick c) (k : Wake) (w : World) :
    (Execute c k w).1.Timer.tLastGameTick =
      if k.CheckAndReset && tickDue k.tNow w then
        (compensate k.tNow (advance k.tNow w.Timer)).tLastGameTick
      else w.Timer.tLastGameTick := by
  unfold Execute
  cases hg : k.CheckAndReset
  · simp
  · simp [drawStage_last c hc, tickStage_last c hc]

/-- C1: on a wake that passed the gate `CheckAndReset()`, `Execute` calls
`Application.GameTick()` if and only if
`tNow >= tLastGameTick + iExtraGameTickDelay` or `Game.GameGo` is set. -/
theorem C1_tick_iff_due (c : Collaborators) (k : Wake) (w : World)
    (hgate : k.CheckAndReset = true) :
    Call.GameTick ∈ (Execute c k w).2 ↔
      (w.Timer.tLastGameTick.plus (w.Timer.iExtraGameTickDelay : Int) ≤ ms k.tNow ∨
        w.Game.GameGo = true) := by
  rw [gameTick_mem_iff c k w hgate, tickDue_iff]

/-- Witness of C1: a timer last ticked at 100 with no extra delay, woken at 100. -/
theorem C1_tick_iff_due_witness :
    Call.GameTick ∈ (Execute idle ⟨true, 100, 100, 101⟩
        ⟨⟨28, ms 100, 28, 0⟩, ⟨false, false, false⟩⟩).2 ↔
      ((ms 100).plus ((0 : Nat) : Int) ≤ ms 100 ∨ false = true) :=
  C1_tick_iff_due idle ⟨true, 100, 100, 101⟩ ⟨⟨28, ms 100, 28, 0⟩, ⟨false, false, false⟩⟩ rfl

theorem advance_compensate_ms (tNow L : Int) (t : C4ApplicationGameTimer)
    (hd : 0 < t.iGameTickDelay) (hL : t.tLastGameTick = ms L) :
    (compensate tNow (advance tNow t)).tLastGameTick =
      ms (L + (t.iGameTickDelay : Int) +
        (if tNow ≤ L + 2 * (t.iGameTickDelay : Int) then 0
         else (tNow - (L + (t.iGameTickDelay : Int))) / 2)) := by
  have hne : t.iGameTickDelay ≠ 0 := by omega
  simp only [advance, hne, ne_eq, not_false_eq_true, if_true, compensate, hL, plus_ms, gt,
    lt_ms_ms, minus_ms_ms]
  by_cases h : L + (t.iGameTickDelay : Int) + (t.iGameTickDelay : Int) < tNow
  · have h2 : ¬ tNow ≤ L + 2 * (t.iGameTickDelay : Int) := by omega
    have h3 : Int.tdiv (tNow - (L + (t.iGameTickDelay : Int))) 2
        = (tNow - (L + (t.iGameTickDelay : Int))) / 2 :=
      Int.tdiv_eq_ediv (by omega) (by omega)
    simp [h, h2, h3]
  · have h2 : tNow ≤ L + 2 * (t.iGameTickDelay : Int) := by omega
    simp [h, h2]

theorem advance_compensate_inf (tNow : Int) (t : C4ApplicationGameTimer)
    (hd : 0 < t.iGameTickDelay) (hL : t.tLastGameTick = NegativeInfinity) :
    (compensate tNow (advance tNow t)).tLastGameTick = NegativeInfinity := by
  have hne : t.iGameTickDelay ≠ 0 := by omega
  simp [advance, hne, compensate, hL, gt]

/-- C2 (as amended): on a wake that runs a tick with `iGameTickDelay = d > 0`,
a real `tLastGameTick = L` increases by exactly `d` when `tNow <= L + 2 * d`,
and by `d + (tNow - (L + d)) / 2` when `tNow > L + 2 * d` (the drift
compensation adds half of the remaining lag); a `tLastGameTick` that is still
`NegativeInfinity` stays `NegativeInfinity`. -/
theorem C2_tick_advance (c : Collaborators) (hc : KeepsLastGameTick c) (k : Wake) (w : World)
    (hd : 0 < w.Timer.iGameTickDelay) (htick : Call.GameTick ∈ (Execute c k w).2) :
    (∀ L : Int, w.Timer.tLastGameTick = ms L →
      (Execute c k w).1.Timer.tLastGameTick =
        ms (L + (w.Timer.iGameTickDelay : Int) +
          (if k.tNow ≤ L + 2 * (w.Timer.iGameTickDelay : Int) then 0
           else (k.tNow - (L + (w.Timer.iGameTickDelay : Int))) / 2))) ∧
    (w.Timer.tLastGameTick = NegativeInfinity →
      (Execute c k w).1.Timer.tLastGameTick = NegativeInfinity) := by
  have hgate : k.CheckAndReset = true := by
    cases hg : k.CheckAndReset
    · simp [Execute, hg] at htick
    · rfl
  have hdue : tickDue k.tNow w = true := (gameTick_mem_iff c k w hgate).1 htick
  rw [Execute_last c hc, hgate, hdue]
  exact ⟨fun L hL => advance_compensate_ms k.tNow L w.Timer hd hL,
    fun hL => advance_compensate_inf k.tNow w.Timer hd hL⟩

/-- Witness of C2: `tLastGameTick = 28`, `iGameTickDelay = 28`, woken at 200. -/
theorem C2_tick_advance_witness :
    (Execute idle ⟨true, 200, 200, 201⟩
      ⟨⟨28, ms 28, 28, 0⟩, ⟨false, false, false⟩⟩).1.Timer.tLastGameTick = ms 128 :=
  (C2_tick_advance idle (fun _ => ⟨rfl, rfl⟩) ⟨true, 200, 200, 201⟩
    ⟨⟨28, ms 28, 28, 0⟩, ⟨false, false, false⟩⟩ (by decide) (by decide)).1 28 rfl

/-- Counterexample to C2 as stated: from construction, `SetGameTickDelay(0)`,
a wake at 0 and `SetGameTickDelay(28)` give `tLastGameTick = 0` with
`iGameTickDelay = 28`. With that interval fixed, the wakes at 28 and at 200
both run a tick; the second one moves `tLastGameTick` from 28 to 128, not to
56. -/
theorem C2_counterexample :
    let w0 : World := run 30 idle
      [Op.SetGameTickDelay 0, Op.Execute ⟨true, 0, 0, 0⟩, Op.SetGameTickDelay 28]
      ⟨new, ⟨false, false, false⟩⟩
    let r1 := Execute idle ⟨true, 28, 28, 28⟩ w0
    let r2 := Execute idle ⟨true, 200, 200, 200⟩ r1.1
    w0.Timer.iGameTickDelay = 28 ∧ r1.1.Timer.iGameTickDelay = 28 ∧
      r2.1.Timer.iGameTickDelay = 28 ∧
      Call.GameTick ∈ r1.2 ∧ Call.GameTick ∈ r2.2 ∧
      r1.1.Timer.tLastGameTick = ms 28 ∧
      r2.1.Timer.tLastGameTick = ms 128 ∧
      r2.1.Timer.tLastGameTick ≠ r1.1.Timer.tLastGameTick.plus 28 := by
  decide

theorem compensate_le_now (tNow : Int) (t : C4ApplicationGameTimer)
    (h : t.tLastGameTick.plus (t.iGameTickDelay : Int) < ms tNow) :
    t.tLastGameTick.plus (Int.tdiv (minus (ms tNow) t.tLastGameTick) 2) ≤ ms tNow := by
  cases hL : t.tLastGameTick with
  | NegativeInfinity => simp
  | ms l =>
    rw [hL] at h
    simp only [plus_ms, ms_lt_ms] at h
    have h3 : Int.tdiv (tNow - l) 2 = (tNow - l) / 2 := Int.tdiv_eq_ediv (by omega) (by omega)
    simp only [minus_ms_ms, plus_ms, ms_le_ms, h3]
    omega

/-- C3: on a wake that runs a tick, let `L1` be `tLastGameTick` after the
advance step (`tLastGameTick + iGameTickDelay`, or `tNow` when
`iGameTickDelay` is 0). If `tNow > L1 + iGameTickDelay`, the final
`tLastGameTick` is `L1 + (tNow - L1) / 2`, which is not beyond `tNow`, and for
a real `L1 = l` that is `l + (tNow - l) / 2` with the rounded-down integer
quotient; otherwise the final `tLastGameTick` is `L1`. -/
theorem C3_drift_clamp (c : Collaborators) (hc : KeepsLastGameTick c) (k : Wake) (w : World)
    (htick : Call.GameTick ∈ (Execute c k w).2) :
    let L1 := if w.Timer.iGameTickDelay = 0 then ms k.tNow
      else w.Timer.tLastGameTick.plus (w.Timer.iGameTickDelay : Int)
    let final := (Execute c k w).1.Timer.tLastGameTick
    (L1.plus (w.Timer.iGameTickDelay : Int) < ms k.tNow →
      final = L1.plus (Int.tdiv (minus (ms k.tNow) L1) 2) ∧ final ≤ ms k.tNow ∧
        ∀ l : Int, L1 = ms l → final = ms (l + (k.tNow - l) / 2)) ∧
    (¬ L1.plus (w.Timer.iGameTickDelay : Int) < ms k.tNow → final = L1) := by
  have hgate : k.CheckAndReset = true := by
    cases hg : k.CheckAndReset
    · simp [Execute, hg] at htick
    · rfl
  have hdue : tickDue k.tNow w = true := (gameTick_mem_iff c k w hgate).1 htick
  have hadv : (advance k.tNow w.Timer).tLastGameTick =
      (if w.Timer.iGameTickDelay = 0 then ms k.tNow
        else w.Timer.tLastGameTick.plus (w.Timer.iGameTickDelay : Int)) := by
    unfold advance
    by_cases h0 : w.Timer.iGameTickDelay = 0 <;> simp [h0]
  have hdel : (advance k.tNow w.Timer).iGameTickDelay = w.Timer.iGameTickDelay := by
    unfold advance
    by_cases h0 : w.Timer.iGameTickDelay = 0 <;> simp [h0]
  intro L1 final
  have hfinal : final = (compensate k.tNow (advance k.tNow w.Timer)).tLastGameTick := by
    show (Execute c k w).1.Timer.tLastGameTick = _
    rw [Execute_last c hc, hgate, hdue]
    rfl
  have hL1 : (advance k.tNow w.Timer).tLastGameTick = L1 := hadv
  constructor
  · intro hlt
    have hcond : gt (ms k.tNow)
        ((advance k.tNow w.Timer).tLastGameTick.plus
          ((advance k.tNow w.Timer).iGameTickDelay : Int)) = true := by
      rw [hL1, hdel]
      exact hlt
    have hval : final = L1.plus (Int.tdiv (minus (ms k.tNow) L1) 2) := by
      rw [hfinal]
      unfold compensate
      rw [if_pos hcond, hL1]
    refine ⟨hval, ?_, ?_⟩
    · rw [hval, ← hL1]
      apply compensate_le_now
      rw [hL1, hdel]
      exact hlt
    · intro l hl
      rw [hval, hl]
      rw [hl] at hlt
      simp only [plus_ms, ms_lt_ms] at hlt
      have h3 : Int.tdiv (k.tNow - l) 2 = (k.tNow - l) / 2 :=
        Int.tdiv_eq_ediv (by omega) (by omega)
      simp [h3]
  · intro hnlt
    have hcond : ¬ gt (ms k.tNow)
        ((advance k.tNow w.Timer).tLastGameTick.plus
          ((advance k.tNow w.Timer).iGameTickDelay : Int)) = true := by
      rw [hL1, hdel]
      exact hnlt
    rw [hfinal]
    unfold compensate
    rw [if_neg hcond, hL1]

/-- Witness of C3: `tLastGameTick = 0`, `iGameTickDelay = 28`, woken at 200:
`L1 = 28` and the final value is `28 + 172 / 2 = 114`. -/
theorem C3_drift_clamp_witness :
    (Execute idle ⟨true, 200, 200, 201⟩
      ⟨⟨28, ms 0, 28, 0⟩, ⟨false, false, false⟩⟩).1.Timer.tLastGameTick = ms 114 :=
  ((C3_drift_clamp idle (fun _ => ⟨rfl, rfl⟩) ⟨true, 200, 200, 201⟩
    ⟨⟨28, ms 0, 28, 0⟩, ⟨false, false, false⟩⟩ (by decide)).1 (by decide)).2.2 28 rfl

/-! ## Monotonicity of the virtual tick clock -/

theorem keepsLast_of_keepsTimer (c : Collaborators) (hc : KeepsTimer c) : KeepsLastGameTick c :=
  fun w => ⟨by rw [(hc w).1], by rw [(hc w).2]⟩

theorem advance_compensate_zero (tNow : Int) (t : C4ApplicationGameTimer)
    (hd : t.iGameTickDelay = 0) :
    (compensate tNow (advance tNow t)).tLastGameTick = ms tNow := by
  simp [advance, hd, compensate, gt]

theorem advance_compensate_ge (tNow : Int) (t : C4ApplicationGameTimer)
    (hd : 0 < t.iGameTickDelay) :
    t.tLastGameTick ≤ (compensate tNow (advance tNow t)).tLastGameTick := by
  cases hL : t.tLastGameTick with
  | NegativeInfinity => simp
  | ms l =>
    rw [advance_compensate_ms tNow l t hd hL, ms_le_ms]
    split <;> omega

theorem le_of_plus_le {a : C4TimeMilliseconds} {d b : Int} (hd : 0 ≤ d)
    (h : a.plus d ≤ ms b) : a ≤ ms b := by
  cases a with
  | NegativeInfinity => simp
  | ms l =>
    simp only [plus_ms, ms_le_ms] at h ⊢
    omega

/-- A wake never moves `tLastGameTick` backward, unless it is forced by
`Game.GameGo` while `iGameTickDelay` is 0 and `tLastGameTick` is ahead of
`tNow`. -/
theorem Execute_mono (c : Collaborators) (hc : KeepsLastGameTick c) (k : Wake) (w : World)
    (h : ¬ (w.Game.GameGo = true ∧ w.Timer.iGameTickDelay = 0 ∧
      ms k.tNow < w.Timer.tLastGameTick)) :
    w.Timer.tLastGameTick ≤ (Execute c k w).1.Timer.tLastGameTick := by
  rw [Execute_last c hc]
  split
  · rename_i hrun
    simp only [Bool.and_eq_true] at hrun
    by_cases hd : w.Timer.iGameTickDelay = 0
    · rw [advance_compensate_zero k.tNow w.Timer hd]
      rcases (tickDue_iff k.tNow w).1 hrun.2 with hdue | hgo
      · exact le_of_plus_le (Int.ofNat_nonneg _) hdue
      · exact (not_lt_iff_le _ _).1 (fun hlt => h ⟨hgo, hd, hlt⟩)
    · exact advance_compensate_ge k.tNow w.Timer (by omega)
  · exact time_le_rfl _

theorem Execute_delay (c : Collaborators) (hc : KeepsTimer c) (k : Wake) (w : World) :
    (Execute c k w).1.Timer.iGameTickDelay = w.Timer.iGameTickDelay := by
  unfold Execute
  cases k.CheckAndReset
  · rfl
  · have h1 : (tickStage c k w).1.Timer.iGameTickDelay = w.Timer.iGameTickDelay := by
      unfold tickStage
      split
      · rw [(hc _).1]
        simp only [compensate, advance]
        split <;> split <;> rfl
      · rfl
    have h2 : ∀ v, (drawStage c k v).1.Timer.iGameTickDelay = v.Timer.iGameTickDelay := by
      intro v
      unfold drawStage
      cases v.Game.DoSkipFrame <;> simp [(hc v).2]
    simp [h2, h1]

theorem runWakes_zero_bound (c : Collaborators) (hc : KeepsTimer c) (k : Wake) :
    ∀ (ks : List Wake) (w : World),
      (w.Timer.iGameTickDelay = 0 → ∀ x ∈ ks ++ [k], w.Timer.tLastGameTick ≤ ms x.tNow) →
      List.Pairwise (fun a b : Wake => a.tNow ≤ b.tNow) (ks ++ [k]) →
      (runWakes c ks w).Timer.iGameTickDelay = w.Timer.iGameTickDelay ∧
        (w.Timer.iGameTickDelay = 0 → (runWakes c ks w).Timer.tLastGameTick ≤ ms k.tNow) := by
  intro ks
  induction ks with
  | nil =>
    intro w hb _
    exact ⟨rfl, fun hd => hb hd k (by simp)⟩
  | cons a ks ih =>
    intro w hb hp
    rw [List.cons_append, List.pairwise_cons] at hp
    have hdel := Execute_delay c hc a w
    have hstep : (Execute c a w).1.Timer.iGameTickDelay = 0 →
        ∀ x ∈ ks ++ [k], (Execute c a w).1.Timer.tLastGameTick ≤ ms x.tNow := by
      intro hd x hx
      rw [hdel] at hd
      rw [Execute_last c (keepsLast_of_keepsTimer c hc)]
      split
      · rw [advance_compensate_zero a.tNow w.Timer hd, ms_le_ms]
        exact hp.1 x hx
      · exact hb hd x (List.mem_cons_of_mem _ hx)
    have := ih (Execute c a w).1 hstep hp.2
    simp only [runWakes]
    rw [hdel] at this
    exact this

/-- C4: in every run of wakes with non-decreasing `tNow` and collaborators
that leave the timer alone (so `iGameTickDelay` is fixed, while `Game.GameGo`
may be set or cleared at will), started from a timer whose `tLastGameTick` is
still the `NegativeInfinity` of the constructor (any interval, 0 included) or
from any state at all with a positive interval, `tLastGameTick` after each
wake is at least `tLastGameTick` before it, and `iGameTickDelay` is the one
the run started with. -/
theorem C4_last_tick_monotone (c : Collaborators) (hc : KeepsTimer c) (w0 : World)
    (h0 : w0.Timer.tLastGameTick = NegativeInfinity ∨ 0 < w0.Timer.iGameTickDelay)
    (ks : List Wake) (k : Wake)
    (hnow : List.Chain' (fun a b : Wake => a.tNow ≤ b.tNow) (ks ++ [k])) :
    (runWakes c ks w0).Timer.tLastGameTick ≤
        (Execute c k (runWakes c ks w0)).1.Timer.tLastGameTick ∧
      (runWakes c ks w0).Timer.iGameTickDelay = w0.Timer.iGameTickDelay := by
  have hp : List.Pairwise (fun a b : Wake => a.tNow ≤ b.tNow) (ks ++ [k]) := by
    haveI : IsTrans Wake (fun a b : Wake => a.tNow ≤ b.tNow) :=
      ⟨fun _ _ _ h1 h2 => Int.le_trans h1 h2⟩
    exact List.chain'_iff_pairwise.1 hnow
  have hb := runWakes_zero_bound c hc k ks w0
    (fun hz x _ => by
      rcases h0 with h0 | h0
      · rw [h0]; exact inf_le _
      · omega) hp
  refine ⟨?_, hb.1⟩
  apply Execute_mono c (keepsLast_of_keepsTimer c hc)
  rintro ⟨_, hd, hlt⟩
  rw [hb.1] at hd
  exact (not_lt_iff_le _ _).2 (hb.2 hd) hlt

/-- Witness of C4: from the constructed timer set to interval 0, with
`Game.GameGo` set, after wakes at 5 and 7 the wake at 7 keeps
`tLastGameTick` at 7. -/
theorem C4_last_tick_monotone_witness :
    (runWakes idle [⟨true, 5, 5, 5⟩, ⟨true, 7, 7, 7⟩]
        ⟨SetGameTickDelay 30 new 0, ⟨true, false, false⟩⟩).Timer.tLastGameTick ≤
      (Execute idle ⟨true, 9, 9, 9⟩
        (runWakes idle [⟨true, 5, 5, 5⟩, ⟨true, 7, 7, 7⟩]
          ⟨SetGameTickDelay 30 new 0, ⟨true, false, false⟩⟩)).1.Timer.tLastGameTick :=
  (C4_last_tick_monotone idle (fun _ => ⟨rfl, rfl⟩)
    ⟨SetGameTickDelay 30 new 0, ⟨true, false, false⟩⟩ (Or.inl rfl)
    [⟨true, 5, 5, 5⟩, ⟨true, 7, 7, 7⟩] ⟨true, 9, 9, 9⟩ (by simp)).1

theorem SetGameTickDelay_last (M : Int) (t : C4ApplicationGameTimer) (d : Nat) :
    (SetGameTickDelay M t d).tLastGameTick = t.tLastGameTick := by
  unfold SetGameTickDelay
  simp only
  split <;> rfl

/-- C5 (as amended): in every state, reachable or not, `SetGameTickDelay`
leaves `tLastGameTick` unchanged, and a wake does not move it backward unless
its tick is forced by `Game.GameGo` while `iGameTickDelay` is 0 and
`tLastGameTick` is ahead of `tNow`; such a forced tick sets `tLastGameTick`
to `tNow`. -/
theorem C5_no_backward_step (M : Int) (c : Collaborators) (hc : KeepsLastGameTick c)
    (w : World) :
    (∀ d : Nat, (step M c (Op.SetGameTickDelay d) w).Timer.tLastGameTick
        = w.Timer.tLastGameTick) ∧
    (∀ k : Wake,
      ¬ (w.Game.GameGo = true ∧ w.Timer.iGameTickDelay = 0 ∧
          ms k.tNow < w.Timer.tLastGameTick) →
      w.Timer.tLastGameTick ≤ (step M c (Op.Execute k) w).Timer.tLastGameTick) ∧
    (∀ k : Wake, k.CheckAndReset = true →
      (w.Game.GameGo = true ∧ w.Timer.iGameTickDelay = 0 ∧
          ms k.tNow < w.Timer.tLastGameTick) →
      (step M c (Op.Execute k) w).Timer.tLastGameTick = ms k.tNow) := by
  refine ⟨fun d => SetGameTickDelay_last M w.Timer d, fun k h => Execute_mono c hc k w h, ?_⟩
  intro k hgate hforced
  have hdue : tickDue k.tNow w = true := (tickDue_iff k.tNow w).2 (Or.inr hforced.1)
  show (Execute c k w).1.Timer.tLastGameTick = ms k.tNow
  rw [Execute_last c hc, hgate, hdue]
  exact advance_compensate_zero k.tNow w.Timer hforced.2.1

/-- Witness of C5: a wake at 200 of a timer last ticked at 100 with interval
28 and `Game.GameGo` set moves `tLastGameTick` forward. -/
theorem C5_no_backward_step_witness :
    ms 100 ≤ (step 30 idle (Op.Execute ⟨true, 200, 200, 200⟩)
      ⟨⟨28, ms 100, 28, 0⟩, ⟨true, false, false⟩⟩).Timer.tLastGameTick :=
  (C5_no_backward_step 30 idle (fun _ => ⟨rfl, rfl⟩)
    ⟨⟨28, ms 100, 28, 0⟩, ⟨true, false, false⟩⟩).2.1 ⟨true, 200, 200, 200⟩ (by decide)

/-- Counterexample to C5 as stated: from construction with `Game.GameGo` set,
`SetGameTickDelay(0)`, a wake at 100, `SetGameTickDelay(28)`, a wake at 101
and `SetGameTickDelay(0)` reach a state with `tLastGameTick = 128`; the next
wake, at 102, sets `tLastGameTick` back to 102. -/
theorem C5_counterexample :
    let w : World := run 30 idle
      [Op.SetGameTickDelay 0, Op.Execute ⟨true, 100, 100, 100⟩, Op.SetGameTickDelay 28,
        Op.Execute ⟨true, 101, 101, 101⟩, Op.SetGameTickDelay 0]
      ⟨new, ⟨true, false, false⟩⟩
    let w1 : World := step 30 idle (Op.Execute ⟨true, 102, 102, 102⟩) w
    w.Timer.tLastGameTick = ms 128 ∧ w1.Timer.tLastGameTick = ms 102 ∧
      ¬ w.Timer.tLastGameTick ≤ w1.Timer.tLastGameTick := by
  decide

/-! ## Recovery after a stall -/

theorem Execute_timer (c : Collaborators) (hc : KeepsTimer c) (k : Wake) (w : World) :
    (Execute c k w).1.Timer.iGameTickDelay = w.Timer.iGameTickDelay ∧
      (Execute c k w).1.Timer.iExtraGameTickDelay = w.Timer.iExtraGameTickDelay := by
  refine ⟨Execute_delay c hc k w, ?_⟩
  unfold Execute
  cases k.CheckAndReset
  · rfl
  · have h1 : (tickStage c k w).1.Timer.iExtraGameTickDelay = w.Timer.iExtraGameTickDelay := by
      unfold tickStage
      split
      · rw [(hc _).1]
        simp only [compensate, advance]
        split <;> split <;> rfl
      · rfl
    have h2 : ∀ v, (drawStage c k v).1.Timer.iExtraGameTickDelay
        = v.Timer.iExtraGameTickDelay := by
      intro v
      unfold drawStage
      cases v.Game.DoSkipFrame <;> simp [(hc v).2]
    simp [h2, h1]

theorem Execute_gameGo (c : Collaborators) (hc : KeepsGameGo c) (k : Wake) (w : World) :
    (Execute c k w).1.Game.GameGo = w.Game.GameGo := by
  unfold Execute
  cases k.CheckAndReset
  · rfl
  · have h1 : (tickStage c k w).1.Game.GameGo = w.Game.GameGo := by
      unfold tickStage
      split
      · rw [(hc _).1]
      · rfl
    have h2 : ∀ v, (drawStage c k v).1.Game.GameGo = v.Game.GameGo := by
      intro v
      unfold drawStage
      cases v.Game.DoSkipFrame <;> simp [(hc v).2]
    simp [h2, h1]

/-- One wake of a timer with interval 28, no extra delay, no `Game.GameGo`
and a real `tLastGameTick = L` that is not ahead of `tNow`: the tick runs and
the settings are as before. -/
theorem stall_step (c : Collaborators) (hT : KeepsTimer c) (hG : KeepsGameGo c) (k : Wake)
    (w : World) (L : Int) (hgate : k.CheckAndReset = true)
    (hd : w.Timer.iGameTickDelay = 28) (he : w.Timer.iExtraGameTickDelay = 0)
    (hgo : w.Game.GameGo = false) (hL : w.Timer.tLastGameTick = ms L) (hdue : L ≤ k.tNow) :
    Call.GameTick ∈ (Execute c k w).2 ∧
      (Execute c k w).1.Timer.iGameTickDelay = 28 ∧
      (Execute c k w).1.Timer.iExtraGameTickDelay = 0 ∧
      (Execute c k w).1.Game.GameGo = false ∧
      ∃ l : Int, (Execute c k w).1.Timer.tLastGameTick = ms l ∧
        ((k.tNow ≤ L + 56 ∧ l = L + 28) ∨
          (L + 56 < k.tNow ∧ l = L + 28 + (k.tNow - (L + 28)) / 2)) := by
  have htick : Call.GameTick ∈ (Execute c k w).2 := by
    rw [gameTick_mem_iff c k w hgate, tickDue_iff, hL, he]
    left
    simpa using hdue
  have ht := Execute_timer c hT k w
  refine ⟨htick, by rw [ht.1, hd], by rw [ht.2, he], by rw [Execute_gameGo c hG, hgo], ?_⟩
  have hdue2 : tickDue k.tNow w = true := (gameTick_mem_iff c k w hgate).1 htick
  have h2 := Execute_last c (keepsLast_of_keepsTimer c hT) k w
  rw [hgate, hdue2, Bool.and_self, if_pos rfl,
    advance_compensate_ms k.tNow L w.Timer (by omega) hL, hd] at h2
  by_cases hc2 : k.tNow ≤ L + 56
  · refine ⟨L + 28, ?_, Or.inl ⟨hc2, rfl⟩⟩
    have h56 : k.tNow ≤ L + 2 * ((28 : Nat) : Int) := by omega
    rw [h2, if_pos h56]
    congr 1
    omega
  · refine ⟨L + 28 + (k.tNow - (L + 28)) / 2, ?_, Or.inr ⟨by omega, rfl⟩⟩
    have h56 : ¬ k.tNow ≤ L + 2 * ((28 : Nat) : Int) := by omega
    rw [h2, if_neg h56]
    rfl

/-- C6: with `iGameTickDelay = 28`, no extra delay and `Game.GameGo` never
set, starting from `tLastGameTick = T`, a wake at `T + 200` followed by two
wakes, each at most 28 after the one before: all three wakes run a tick;
after the first tick `tLastGameTick` is `T + 114`, still 86 (more than 28)
behind `tNow`; after the third tick `tLastGameTick` is at most 28 behind
`tNow` and not ahead of it. -/
theorem C6_stall_recovery (c : Collaborators) (hT : KeepsTimer c) (hG : KeepsGameGo c)
    (w : World) (T : Int) (k1 k2 k3 : Wake)
    (hd : w.Timer.iGameTickDelay = 28) (he : w.Timer.iExtraGameTickDelay = 0)
    (hgo : w.Game.GameGo = false) (hL : w.Timer.tLastGameTick = ms T)
    (g1 : k1.CheckAndReset = true) (g2 : k2.CheckAndReset = true)
    (g3 : k3.CheckAndReset = true) (n1 : k1.tNow = T + 200)
    (n2 : k1.tNow ≤ k2.tNow ∧ k2.tNow ≤ k1.tNow + 28)
    (n3 : k2.tNow ≤ k3.tNow ∧ k3.tNow ≤ k2.tNow + 28) :
    Call.GameTick ∈ (Execute c k1 w).2 ∧
    Call.GameTick ∈ (Execute c k2 (Execute c k1 w).1).2 ∧
    Call.GameTick ∈ (Execute c k3 (Execute c k2 (Execute c k1 w).1).1).2 ∧
    (Execute c k1 w).1.Timer.tLastGameTick = ms (T + 114) ∧
    28 < k1.tNow - (T + 114) ∧
    ∃ l3 : Int,
      (Execute c k3 (Execute c k2 (Execute c k1 w).1).1).1.Timer.tLastGameTick = ms l3 ∧
        l3 ≤ k3.tNow ∧ k3.tNow - l3 ≤ 28 := by
  obtain ⟨t1, d1, e1, go1, l1, hl1, c1⟩ :=
    stall_step c hT hG k1 w T g1 hd he hgo hL (by omega)
  have v1 : l1 = T + 114 := by omega
  obtain ⟨t2, d2, e2, go2, l2, hl2, c2⟩ :=
    stall_step c hT hG k2 (Execute c k1 w).1 l1 g2 d1 e1 go1 hl1 (by omega)
  have b2 : l2 ≤ k2.tNow ∧ 29 ≤ k2.tNow - l2 ∧ k2.tNow - l2 ≤ 43 := by omega
  obtain ⟨t3, _, _, _, l3, hl3, c3⟩ :=
    stall_step c hT hG k3 (Execute c k2 (Execute c k1 w).1).1 l2 g3 d2 e2 go2 hl2 (by omega)
  refine ⟨t1, t2, t3, by rw [hl1, v1], by omega, l3, hl3, ?_, ?_⟩ <;> omega

/-- Witness of C6: `T = 1000`, wakes at 1200, 1228 and 1256. -/
theorem C6_stall_recovery_witness :
    ∃ l3 : Int,
      (Execute idle ⟨true, 1256, 1256, 1257⟩
        (Execute idle ⟨true, 1228, 1228, 1229⟩
          (Execute idle ⟨true, 1200, 1200, 1201⟩
            ⟨⟨28, ms 1000, 28, 0⟩, ⟨false, false, false⟩⟩).1).1).1.Timer.tLastGameTick
          = ms l3 ∧ l3 ≤ 1256 ∧ 1256 - l3 ≤ 28 :=
  (C6_stall_recovery idle (fun _ => ⟨rfl, rfl⟩) (fun _ => ⟨rfl, rfl⟩)
    ⟨⟨28, ms 1000, 28, 0⟩, ⟨false, false, false⟩⟩ 1000
    ⟨true, 1200, 1200, 1201⟩ ⟨true, 1228, 1228, 1229⟩ ⟨true, 1256, 1256, 1257⟩
    rfl rfl rfl rfl rfl rfl rfl rfl (by decide) (by decide)).2.2.2.2.2

/-! ## Calls made by one wake -/

/-- C7: a wake calls `Application.GameTick()` at most once and
`Application.Draw()` at most once, and its calls, in order, are a sublist of
`[GameTick, Draw]`: when both are made, `GameTick` comes first, and `Draw`
runs on the state `GameTick` returned. -/
theorem C7_calls_once_in_order (c : Collaborators) (k : Wake) (w : World) :
    List.count Call.GameTick (Execute c k w).2 ≤ 1 ∧
    List.count Call.Draw (Execute c k w).2 ≤ 1 ∧
    List.Sublist (Execute c k w).2 [Call.GameTick, Call.Draw] ∧
    (Call.GameTick ∈ (Execute c k w).2 → Call.Draw ∈ (Execute c k w).2 →
      (Execute c k w).2 = [Call.GameTick, Call.Draw] ∧
      (Execute c k w).1 = (drawStage c k
        (c.GameTick { w with Timer := compensate k.tNow (advance k.tNow w.Timer) })).1) := by
  cases hg : k.CheckAndReset
  · simp [Execute, hg]
  · have hcalls := Execute_calls c k w hg
    have hstate : (Execute c k w).1 = (drawStage c k (tickStage c k w).1).1 := by
      simp [Execute, hg]
    cases hdue : tickDue k.tNow w <;> cases hskip : (tickStage c k w).1.Game.DoSkipFrame
    all_goals rw [hcalls, hdue, hskip]
    all_goals simp
    rw [hstate]
    simp [tickStage, hdue]

/-! ## Automatic frame skip -/

theorem draw_mem_iff (c : Collaborators) (k : Wake) (w : World)
    (hgate : k.CheckAndReset = true) :
    Call.Draw ∈ (Execute c k w).2 ↔ (tickStage c k w).1.Game.DoSkipFrame = false := by
  rw [Execute_calls c k w hgate]
  cases tickDue k.tNow w <;> cases (tickStage c k w).1.Game.DoSkipFrame <;> simp

theorem tickStage_skip (c : Collaborators) (hc : TickKeepsDoSkipFrame c) (k : Wake)
    (w : World) : (tickStage c k w).1.Game.DoSkipFrame = w.Game.DoSkipFrame := by
  unfold tickStage
  split
  · rw [hc]
  · rfl

theorem Execute_skip (c : Collaborators) (k : Wake) (w : World)
    (hgate : k.CheckAndReset = true) :
    (Execute c k w).1.Game.DoSkipFrame =
      (!(tickStage c k w).1.Game.DoSkipFrame &&
        ((c.Draw (tickStage c k w).1).Game.AutoFrameSkip &&
          decide (k.tPreGfxTime + ((c.Draw (tickStage c k w).1).Timer.iGameTickDelay : Int)
            < k.tPostGfxTime))) := by
  simp only [Execute, hgate, Bool.not_true, Bool.false_eq_true, if_false, drawStage]
  cases (tickStage c k w).1.Game.DoSkipFrame <;> simp

/-- C8: for two consecutive wakes that passed the gate, with no writer of
`Game.DoSkipFrame` other than `Execute` itself (neither `GameTick` nor what
runs between the wakes writes it), the second wake skips `Draw` if and only if
the first wake called `Draw`, `Game.Parameters.AutoFrameSkip` was set after
that call and the call took strictly longer than `iGameTickDelay`
(`tPreGfxTime + iGameTickDelay < Now()`); whether a tick ran in either wake
plays no part. Hence `Draw` is never skipped in two consecutive wakes. -/
theorem C8_frame_skip (c : Collaborators) (hc : TickKeepsDoSkipFrame c)
    (between : World → World)
    (hb : ∀ v, (between v).Game.DoSkipFrame = v.Game.DoSkipFrame)
    (k1 k2 : Wake) (w : World)
    (g1 : k1.CheckAndReset = true) (g2 : k2.CheckAndReset = true) :
    (Call.Draw ∉ (Execute c k2 (between (Execute c k1 w).1)).2 ↔
      (Call.Draw ∈ (Execute c k1 w).2 ∧
        (c.Draw (tickStage c k1 w).1).Game.AutoFrameSkip = true ∧
        ((c.Draw (tickStage c k1 w).1).Timer.iGameTickDelay : Int)
          < k1.tPostGfxTime - k1.tPreGfxTime)) ∧
    (Call.Draw ∉ (Execute c k2 (between (Execute c k1 w).1)).2 →
      Call.Draw ∈ (Execute c k1 w).2) := by
  have key : Call.Draw ∉ (Execute c k2 (between (Execute c k1 w).1)).2 ↔
      (Call.Draw ∈ (Execute c k1 w).2 ∧
        (c.Draw (tickStage c k1 w).1).Game.AutoFrameSkip = true ∧
        ((c.Draw (tickStage c k1 w).1).Timer.iGameTickDelay : Int)
          < k1.tPostGfxTime - k1.tPreGfxTime) := by
    rw [draw_mem_iff c k2 _ g2, draw_mem_iff c k1 w g1, tickStage_skip c hc, hb,
      Execute_skip c k1 w g1]
    cases (tickStage c k1 w).1.Game.DoSkipFrame <;>
      cases (c.Draw (tickStage c k1 w).1).Game.AutoFrameSkip <;> simp
    omega
  exact ⟨key, fun h => (key.1 h).1⟩

/-- Witness of C8: auto frame skip on, interval 28, a first `Draw` lasting 40:
the second wake does not call `Draw`. -/
theorem C8_frame_skip_witness :
    Call.Draw ∉ (Execute idle ⟨true, 130, 130, 131⟩
      (Execute idle ⟨true, 100, 100, 140⟩
        ⟨⟨28, ms 100, 28, 0⟩, ⟨false, false, true⟩⟩).1).2 :=
  (C8_frame_skip idle (fun _ => rfl) (fun v => v) (fun _ => rfl)
    ⟨true, 100, 100, 140⟩ ⟨true, 130, 130, 131⟩
    ⟨⟨28, ms 100, 28, 0⟩, ⟨false, false, true⟩⟩ rfl rfl).1.2 (by decide)

/-! ## The tick does not depend on rendering -/

theorem gameTick_mem_iff_run (c : Collaborators) (k : Wake) (w : World) :
    Call.GameTick ∈ (Execute c k w).2 ↔ (k.CheckAndReset && tickDue k.tNow w) = true := by
  cases hg : k.CheckAndReset
  · simp [Execute, hg]
  · simpa using gameTick_mem_iff c k w hg

theorem tickDue_congr (tNow : Int) (w v : World)
    (hl : w.Timer.tLastGameTick = v.Timer.tLastGameTick)
    (he : w.Timer.iExtraGameTickDelay = v.Timer.iExtraGameTickDelay)
    (hgo : w.Game.GameGo = v.Game.GameGo) : tickDue tNow w = tickDue tNow v := by
  simp [tickDue, hl, he, hgo]

theorem advance_compensate_congr (tNow : Int) (t u : C4ApplicationGameTimer)
    (hl : t.tLastGameTick = u.tLastGameTick) (hd : t.iGameTickDelay = u.iGameTickDelay) :
    (compensate tNow (advance tNow t)).tLastGameTick =
      (compensate tNow (advance tNow u)).tLastGameTick := by
  have ha : (advance tNow t).tLastGameTick = (advance tNow u).tLastGameTick := by
    unfold advance
    rw [hl, hd]
    split <;> rfl
  have hda : ∀ x : C4ApplicationGameTimer, (advance tNow x).iGameTickDelay = x.iGameTickDelay := by
    intro x
    unfold advance
    split <;> rfl
  unfold compensate
  rw [ha, hda t, hda u, hd]
  split <;> simp [ha]

/-- C9: two runs of a wake that agree on the gate, on `tNow`, `tLastGameTick`,
`iGameTickDelay`, `iExtraGameTickDelay` and `Game.GameGo`, and are otherwise
arbitrary (`Game.DoSkipFrame`, `Game.Parameters.AutoFrameSkip`, the wake delay,
the times read around `Draw`, the collaborators), take the same tick decision
and end with the same `tLastGameTick`. -/
theorem C9_tick_independent_of_render (c c' : Collaborators) (hc : KeepsLastGameTick c)
    (hc' : KeepsLastGameTick c') (k k' : Wake) (w w' : World)
    (hg : k.CheckAndReset = k'.CheckAndReset) (hn : k.tNow = k'.tNow)
    (hl : w.Timer.tLastGameTick = w'.Timer.tLastGameTick)
    (hd : w.Timer.iGameTickDelay = w'.Timer.iGameTickDelay)
    (he : w.Timer.iExtraGameTickDelay = w'.Timer.iExtraGameTickDelay)
    (hgo : w.Game.GameGo = w'.Game.GameGo) :
    (Call.GameTick ∈ (Execute c k w).2 ↔ Call.GameTick ∈ (Execute c' k' w').2) ∧
      (Execute c k w).1.Timer.tLastGameTick = (Execute c' k' w').1.Timer.tLastGameTick := by
  have hdue : tickDue k.tNow w = tickDue k'.tNow w' := by
    rw [hn]
    exact tickDue_congr k'.tNow w w' hl he hgo
  constructor
  · rw [gameTick_mem_iff_run, gameTick_mem_iff_run, hg, hdue]
  · rw [Execute_last c hc, Execute_last c' hc', hg, hdue, hn, hl,
      advance_compensate_congr k'.tNow w.Timer w'.Timer hl hd]

/-- Witness of C9: the same wake at 100 of a timer last ticked at 72, once
with the frame skip flag clear and a fast `Draw`, once with the flag set,
auto frame skip on and a slow `Draw`. -/
theorem C9_tick_independent_of_render_witness :
    (Execute idle ⟨true, 100, 100, 101⟩
        ⟨⟨28, ms 72, 28, 0⟩, ⟨false, false, false⟩⟩).1.Timer.tLastGameTick =
      (Execute idle ⟨true, 100, 150, 290⟩
        ⟨⟨28, ms 72, 28, 0⟩, ⟨false, true, true⟩⟩).1.Timer.tLastGameTick :=
  (C9_tick_independent_of_render idle idle (fun _ => ⟨rfl, rfl⟩) (fun _ => ⟨rfl, rfl⟩)
    ⟨true, 100, 100, 101⟩ ⟨true, 100, 150, 290⟩
    ⟨⟨28, ms 72, 28, 0⟩, ⟨false, false, false⟩⟩ ⟨⟨28, ms 72, 28, 0⟩, ⟨false, true, true⟩⟩
    rfl rfl rfl rfl rfl rfl).2

/-! ## Configuring the tick delay -/

theorem toUInt32_of_range (M : Int) (h0 : 0 ≤ M) (h1 : M < 4294967296) :
    (toUInt32 M : Int) = M := by
  unfold toUInt32
  rw [Int.emod_eq_of_lt h0 h1]
  exact Int.toNat_of_nonneg h0

/-- C10 (as amended): after `SetGameTickDelay(d)` with a `uint32_t` value `d`,
`iGameTickDelay = d`; if `d < uint32_t(MaxRefreshDelay)` the wake delay is `d`
and `iExtraGameTickDelay = 0`, otherwise the wake delay is `MaxRefreshDelay`
and `iExtraGameTickDelay = d`. For `0 <= MaxRefreshDelay < 2^32` the
comparison is the plain `d < MaxRefreshDelay`. `tLastGameTick` is not
touched. -/
theorem C10_set_game_tick_delay (M : Int) (t : C4ApplicationGameTimer) (d : Nat)
    (hd : d < 4294967296) :
    (SetGameTickDelay M t d).iGameTickDelay = d ∧
    (d < toUInt32 M →
      (SetGameTickDelay M t d).iDelay = (d : Int) ∧
        (SetGameTickDelay M t d).iExtraGameTickDelay = 0) ∧
    (¬ d < toUInt32 M →
      (SetGameTickDelay M t d).iDelay = M ∧
        (SetGameTickDelay M t d).iExtraGameTickDelay = d) ∧
    (0 ≤ M → M < 4294967296 → ((d : Int) < M ↔ d < toUInt32 M)) ∧
    (SetGameTickDelay M t d).tLastGameTick = t.tLastGameTick := by
  have hmod : d % 4294967296 = d := Nat.mod_eq_of_lt hd
  refine ⟨?_, ?_, ?_, ?_, SetGameTickDelay_last M t d⟩
  · unfold SetGameTickDelay
    simp only [hmod]
    split <;> rfl
  · intro h
    unfold SetGameTickDelay
    simp only [hmod, h, if_true, and_self]
  · intro h
    unfold SetGameTickDelay
    simp only [hmod, h, if_false, and_self]
  · intro h0 h1
    have := toUInt32_of_range M h0 h1
    omega

/-- Witness of C10: `MaxRefreshDelay = 30` and `d = 28` on the constructed
timer. -/
theorem C10_set_game_tick_delay_witness :
    (SetGameTickDelay 30 new 28).iGameTickDelay = 28 :=
  (C10_set_game_tick_delay 30 new 28 (by decide)).1

/-- Counterexample to C10 as stated: with `MaxRefreshDelay = -1` and `d = 5`,
`d < MaxRefreshDelay` is false, yet the code compares `5 < uint32_t(-1)` and
sets the wake delay to 5 and `iExtraGameTickDelay` to 0. -/
theorem C10_counterexample :
    ¬ ((SetGameTickDelay (-1) new 5).iGameTickDelay = 5 ∧
      (if ((5 : Nat) : Int) < (-1 : Int) then
        (SetGameTickDelay (-1) new 5).iDelay = 5 ∧
          (SetGameTickDelay (-1) new 5).iExtraGameTickDelay = 0
      else
        (SetGameTickDelay (-1) new 5).iDelay = -1 ∧
          (SetGameTickDelay (-1) new 5).iExtraGameTickDelay = 5)) := by
  decide

/-! ## Interval zero, the constructed timer, repeated configuration -/

theorem runWakes_extra (c : Collaborators) (hc : KeepsTimer c) :
    ∀ (ks : List Wake) (w : World),
      (runWakes c ks w).Timer.iExtraGameTickDelay = w.Timer.iExtraGameTickDelay := by
  intro ks
  induction ks with
  | nil => intro w; rfl
  | cons a ks ih =>
    intro w
    simp only [runWakes]
    rw [ih, (Execute_timer c hc a w).2]

theorem SetGameTickDelay_zero (M : Int) (t : C4ApplicationGameTimer) :
    (SetGameTickDelay M t 0).iGameTickDelay = 0 ∧
      (SetGameTickDelay M t 0).iExtraGameTickDelay = 0 := by
  unfold SetGameTickDelay
  simp only [Nat.zero_mod]
  split <;> exact ⟨rfl, rfl⟩

theorem plus_zero_le {a : C4TimeMilliseconds} {b : Int} (h : a ≤ ms b) :
    a.plus ((0 : Nat) : Int) ≤ ms b := by
  cases a with
  | NegativeInfinity => simp
  | ms l => simpa using h

/-- C12: with `SetGameTickDelay(0)` applied to the constructed timer and the
timer left alone afterwards, in every run of wakes with non-decreasing `tNow`
each wake that passed the gate runs a tick and leaves `tLastGameTick` equal
to its `tNow`: the advance step sets it to `tNow` and the drift compensation
changes nothing. -/
theorem C12_zero_interval (M : Int) (c : Collaborators) (hc : KeepsTimer c) (g : C4Game)
    (ks : List Wake) (k : Wake)
    (hnow : List.Chain' (fun a b : Wake => a.tNow ≤ b.tNow) (ks ++ [k]))
    (hgate : k.CheckAndReset = true) :
    Call.GameTick ∈ (Execute c k (runWakes c ks ⟨SetGameTickDelay M new 0, g⟩)).2 ∧
    (Execute c k (runWakes c ks ⟨SetGameTickDelay M new 0, g⟩)).1.Timer.tLastGameTick
      = ms k.tNow ∧
    (advance k.tNow (runWakes c ks ⟨SetGameTickDelay M new 0, g⟩).Timer).tLastGameTick
      = ms k.tNow ∧
    compensate k.tNow (advance k.tNow (runWakes c ks ⟨SetGameTickDelay M new 0, g⟩).Timer)
      = advance k.tNow (runWakes c ks ⟨SetGameTickDelay M new 0, g⟩).Timer := by
  have hp : List.Pairwise (fun a b : Wake => a.tNow ≤ b.tNow) (ks ++ [k]) := by
    haveI : IsTrans Wake (fun a b : Wake => a.tNow ≤ b.tNow) :=
      ⟨fun _ _ _ h1 h2 => Int.le_trans h1 h2⟩
    exact List.chain'_iff_pairwise.1 hnow
  have hz := SetGameTickDelay_zero M new
  have hl : (SetGameTickDelay M new 0).tLastGameTick = NegativeInfinity :=
    SetGameTickDelay_last M new 0
  have hb := runWakes_zero_bound c hc k ks ⟨SetGameTickDelay M new 0, g⟩
    (fun _ x _ => by
      show (SetGameTickDelay M new 0).tLastGameTick ≤ ms x.tNow
      rw [hl]
      exact inf_le _) hp
  have hd : (runWakes c ks ⟨SetGameTickDelay M new 0, g⟩).Timer.iGameTickDelay = 0 := by
    rw [hb.1]
    exact hz.1
  have he : (runWakes c ks ⟨SetGameTickDelay M new 0, g⟩).Timer.iExtraGameTickDelay = 0 := by
    rw [runWakes_extra c hc]
    exact hz.2
  have hle := hb.2 hz.1
  have hdue : tickDue k.tNow (runWakes c ks ⟨SetGameTickDelay M new 0, g⟩) = true := by
    rw [tickDue_iff, he]
    exact Or.inl (plus_zero_le hle)
  refine ⟨(gameTick_mem_iff c _ _ hgate).2 hdue, ?_, ?_, ?_⟩
  · rw [Execute_last c (keepsLast_of_keepsTimer c hc), hgate, hdue]
    exact advance_compensate_zero k.tNow _ hd
  · simp [advance, hd]
  · simp [advance, hd, compensate, gt]

/-- Witness of C12: interval 0 since construction, wakes at 5 and 7, then a
wake at 9 leaves `tLastGameTick = 9`. -/
theorem C12_zero_interval_witness :
    (Execute idle ⟨true, 9, 9, 9⟩
      (runWakes idle [⟨true, 5, 5, 5⟩, ⟨true, 7, 7, 7⟩]
        ⟨SetGameTickDelay 30 new 0, ⟨false, false, false⟩⟩)).1.Timer.tLastGameTick = ms 9 :=
  (C12_zero_interval 30 idle (fun _ => ⟨rfl, rfl⟩) ⟨false, false, false⟩
    [⟨true, 5, 5, 5⟩, ⟨true, 7, 7, 7⟩] ⟨true, 9, 9, 9⟩ (by simp) rfl).2.1

/-- C13: the constructed timer has `iGameTickDelay = 28`,
`iExtraGameTickDelay = 0` and `tLastGameTick = NegativeInfinity`, and the
first wake that passes the gate runs a tick for every real `tNow`, every
state of `Game` (with `Game.GameGo` set or not) and every behaviour of the
collaborators. -/
theorem C13_first_wake_ticks (c : Collaborators) (k : Wake) (g : C4Game)
    (hgate : k.CheckAndReset = true) :
    new.iGameTickDelay = 28 ∧ new.iExtraGameTickDelay = 0 ∧
      new.tLastGameTick = NegativeInfinity ∧
      Call.GameTick ∈ (Execute c k ⟨new, g⟩).2 := by
  refine ⟨rfl, rfl, rfl, ?_⟩
  rw [gameTick_mem_iff c k _ hgate, tickDue_iff]
  left
  show NegativeInfinity ≤ ms k.tNow
  exact inf_le _

/-- Witness of C13: a first wake at the reading -5000 with `Game.GameGo`
clear. -/
theorem C13_first_wake_ticks_witness :
    Call.GameTick ∈ (Execute idle ⟨true, -5000, -5000, -5000⟩
      ⟨new, ⟨false, false, false⟩⟩).2 :=
  (C13_first_wake_ticks idle ⟨true, -5000, -5000, -5000⟩ ⟨false, false, false⟩ rfl).2.2.2

/-- C14: `SetGameTickDelay(d)` is idempotent: for every timer state, every
`d` and every fixed `MaxRefreshDelay`, a second call with the same `d`
changes nothing, in any member (`iGameTickDelay`, `iExtraGameTickDelay`, the
wake delay, `tLastGameTick`). -/
theorem C14_set_delay_idempotent (M : Int) (t : C4ApplicationGameTimer) (d : Nat) :
    SetGameTickDelay M (SetGameTickDelay M t d) d = SetGameTickDelay M t d := by
  unfold SetGameTickDelay
  simp only
  split <;> rfl

end C4ApplicationGameTimer

/-! ## The tick delay set through the application -/

namespace C4Application

open C4AppState

theorem SetGameTickDelay_fields (M : Int) (t : C4ApplicationGameTimer) (d : Nat)
    (hd : d < 4294967296) :
    (C4ApplicationGameTimer.SetGameTickDelay M t d).iGameTickDelay = d ∧
      (C4ApplicationGameTimer.SetGameTickDelay M t d).iExtraGameTickDelay =
        (if d < toUInt32 M then 0 else d) := by
  have hmod : d % 4294967296 = d := Nat.mod_eq_of_lt hd
  unfold C4ApplicationGameTimer.SetGameTickDelay
  simp only [hmod]
  split <;> exact ⟨rfl, rfl⟩

/-- C11 (as amended): a negative `int` delay passed to
`C4Application::SetGameTickDelay` while the timer exists is converted to
`uint32_t`, not clamped: `iGameTickDelay` becomes `iDelay + 2^32`, at least
`2^31`, and `iExtraGameTickDelay` is 0 when that value is below
`uint32_t(MaxRefreshDelay)` and equal to it otherwise. -/
theorem C11_negative_delay_wraps (M : Int) (t : C4ApplicationGameTimer) (iDelay : Int)
    (hlo : -2147483648 ≤ iDelay) (hneg : iDelay < 0) :
    ∃ t' : C4ApplicationGameTimer,
      SetGameTickDelay M (some t) iDelay = some t' ∧
      (t'.iGameTickDelay : Int) = iDelay + 4294967296 ∧
      2147483648 ≤ t'.iGameTickDelay ∧
      t'.iExtraGameTickDelay =
        (if t'.iGameTickDelay < toUInt32 M then 0 else t'.iGameTickDelay) ∧
      t'.tLastGameTick = t.tLastGameTick := by
  have hconv : (toUInt32 iDelay : Int) = iDelay + 4294967296 := by
    unfold toUInt32
    have h1 : iDelay % 4294967296 = iDelay + 4294967296 := by omega
    rw [h1]
    exact Int.toNat_of_nonneg (by omega)
  have hlt : toUInt32 iDelay < 4294967296 := by omega
  have hf := SetGameTickDelay_fields M t (toUInt32 iDelay) hlt
  refine ⟨C4ApplicationGameTimer.SetGameTickDelay M t (toUInt32 iDelay), rfl, ?_, ?_, ?_,
    C4ApplicationGameTimer.SetGameTickDelay_last M t _⟩
  · rw [hf.1, hconv]
  · rw [hf.1]
    omega
  · rw [hf.2, hf.1]

/-- Witness of C11: the delay -1 on the constructed timer gives
`iGameTickDelay = 4294967295`. -/
theorem C11_negative_delay_wraps_witness :
    ∃ t' : C4ApplicationGameTimer,
      SetGameTickDelay 30 (some C4ApplicationGameTimer.new) (-1) = some t' ∧
      (t'.iGameTickDelay : Int) = -1 + 4294967296 ∧
      2147483648 ≤ t'.iGameTickDelay ∧
      t'.iExtraGameTickDelay =
        (if t'.iGameTickDelay < toUInt32 30 then 0 else t'.iGameTickDelay) ∧
      t'.tLastGameTick = C4ApplicationGameTimer.new.tLastGameTick :=
  C11_negative_delay_wraps 30 C4ApplicationGameTimer.new (-1) (by decide) (by decide)

/-- Counterexample to C11 as stated: with `MaxRefreshDelay = 30`, the delay -1
on the constructed timer leaves `iGameTickDelay = 4294967295` and
`iExtraGameTickDelay = 4294967295`, while the delay 0 leaves both at 0. -/
theorem C11_counterexample :
    SetGameTickDelay 30 (some C4ApplicationGameTimer.new) (-1) =
        some ⟨30, C4TimeMilliseconds.NegativeInfinity, 4294967295, 4294967295⟩ ∧
      SetGameTickDelay 30 (some C4ApplicationGameTimer.new) 0 =
        some ⟨0, C4TimeMilliseconds.NegativeInfinity, 0, 0⟩ := by
  decide

/-! ## Lifecycle: how a game ends -/

theorem call_w (e : Env) (x : Ext) (r : Run) : (r.call e x).1.w = (e x r.w).1 := rfl

theorem call_log (e : Env) (x : Ext) (r : Run) :
    (r.call e x).1.log = r.log ++ [(x, r.w.AppState)] := rfl

theorem call_result (e : Env) (x : Ext) (r : Run) : (r.call e x).2 = (e x r.w).2 := rfl

theorem call_keeps (e : Env) (he : KeepsApplication e) (x : Ext) (r : Run) :
    (r.call e x).1.w.AppState = r.w.AppState ∧
      (r.call e x).1.w.QuitAfterGame = r.w.QuitAfterGame ∧
      (r.call e x).1.w.NextMission = r.w.NextMission ∧
      (r.call e x).1.w.isEditor = r.w.isEditor :=
  he x r.w

theorem Quit_state (e : Env) (r : Run) : (Quit e r).w.AppState = C4AS_Quit := rfl

theorem QuitGame_state (e : Env) (r : Run) :
    (QuitGame e r).w.AppState =
      (if !r.w.QuitAfterGame || r.w.NextMission.isSome then C4AS_AfterGame else C4AS_Quit) := by
  unfold QuitGame
  split
  · rfl
  · exact Quit_state e r

theorem GameTick_startGame (e : Env) (r : Run) (hs : r.w.AppState = C4AS_StartGame) :
    GameTick e r = GameTickStartGame e r := by
  unfold GameTick
  rw [hs]

theorem GameTick_afterGame (e : Env) (r : Run) (hs : r.w.AppState = C4AS_AfterGame) :
    GameTick e r = GameTickAfterGame e r := by
  unfold GameTick
  rw [hs]

theorem afterGameInit_keeps (e : Env) (he : KeepsApplication e) (r : Run) :
    (afterGameInit e r).w.AppState = C4AS_Game ∧
      (afterGameInit e r).w.QuitAfterGame = r.w.QuitAfterGame ∧
      (afterGameInit e r).w.NextMission = r.w.NextMission ∧
      (afterGameInit e r).w.isEditor = r.w.isEditor := by
  have h1 := call_keeps e he Ext.CloseStartup r
  have h2 := call_keeps e he Ext.GameInit (beforeGameInit e r)
  unfold afterGameInit
  refine ⟨?_, ?_, ?_, ?_⟩
  · rw [h2.1]; rfl
  · rw [h2.2.1]; exact h1.2.1
  · rw [h2.2.2.1]; exact h1.2.2.1
  · rw [h2.2.2.2]; exact h1.2.2.2

theorem startGame_failed (e : Env) (r : Run) (hf : gameInitResult e r = false) :
    GameTickStartGame e r =
      QuitGame e (if !(afterGameInit e r).w.UserAbort then
          { afterGameInit e r with
            w := { (afterGameInit e r).w with fQuitWithError := true } }
        else afterGameInit e r) := by
  unfold gameInitResult at hf
  unfold GameTickStartGame afterGameInit
  simp only [beforeGameInit] at hf ⊢
  simp only [hf, Bool.not_false, if_true]

theorem startGame_succeeded (e : Env) (r : Run) (hf : gameInitResult e r = true) :
    GameTickStartGame e r =
      (if (afterGameInit e r).w.Windowed = 2 && FullScreenMode (afterGameInit e r).w then
        ((afterGameInit e r).call e Ext.SetVideoMode).1
      else afterGameInit e r) := by
  unfold gameInitResult at hf
  unfold GameTickStartGame afterGameInit
  simp only [beforeGameInit] at hf ⊢
  simp only [hf, Bool.not_true, Bool.false_eq_true, if_false]

theorem GameTick_quit (e : Env) (r : Run) (hs : r.w.AppState = C4AS_Quit) :
    GameTick e r = r := by
  unfold GameTick
  rw [hs]

theorem GameTickAfterGame_log (e : Env) (r : Run) :
    ∃ rest, (GameTickAfterGame e r).log = r.log ++ (Ext.GameClear, r.w.AppState) :: rest := by
  unfold GameTickAfterGame
  simp only [Run.call, Run.setAppState]
  split_ifs <;> split <;> simp

theorem GameTick_afterGame_log (e : Env) (r : Run) (hs : r.w.AppState = C4AS_AfterGame) :
    ∃ rest, (GameTick e r).log = r.log ++ (Ext.GameClear, C4AS_AfterGame) :: rest := by
  rw [GameTick_afterGame e r hs, ← hs]
  exact GameTickAfterGame_log e r

/-- C15 (as amended): when a game ends, by `QuitGame` or by `Game.Init()`
failing in a `C4AS_StartGame` dispatch (outside calls not writing the
application's members), the state becomes `C4AS_AfterGame` if `QuitAfterGame`
is false or a next mission is pending; with `QuitAfterGame` set and no
mission pending `QuitGame` calls `Quit` and the state becomes `C4AS_Quit`.
The teardown is kept wherever the state becomes `C4AS_AfterGame`: a dispatch
in `C4AS_AfterGame` makes `Game.Clear()` its first outside call, in that
state, for every policy and every pending mission (also none), so the
dispatch that follows either ending starts with `Game.Clear()`; after the
ending in `C4AS_Quit` the following dispatch does nothing. -/
theorem C15_game_end_state (e : Env) (he : KeepsApplication e) (r : Run) :
    (QuitGame e r).w.AppState =
      (if !r.w.QuitAfterGame || r.w.NextMission.isSome then C4AS_AfterGame else C4AS_Quit) ∧
    (r.w.AppState = C4AS_StartGame → gameInitResult e r = false →
      (GameTick e r).w.AppState =
        (if !r.w.QuitAfterGame || r.w.NextMission.isSome then C4AS_AfterGame
         else C4AS_Quit)) ∧
    (r.w.AppState = C4AS_AfterGame →
      ∃ rest, (GameTick e r).log = r.log ++ (Ext.GameClear, C4AS_AfterGame) :: rest) ∧
    ((!r.w.QuitAfterGame || r.w.NextMission.isSome) = true →
      (QuitGame e r).log = r.log ∧
      ∃ rest, (GameTick e (QuitGame e r)).log
        = r.log ++ (Ext.GameClear, C4AS_AfterGame) :: rest) ∧
    ((!r.w.QuitAfterGame || r.w.NextMission.isSome) = false →
      GameTick e (QuitGame e r) = QuitGame e r) ∧
    (r.w.AppState = C4AS_StartGame → gameInitResult e r = false →
      (!r.w.QuitAfterGame || r.w.NextMission.isSome) = true →
      ∃ rest, (GameTick e (GameTick e r)).log
        = (GameTick e r).log ++ (Ext.GameClear, C4AS_AfterGame) :: rest) ∧
    (r.w.AppState = C4AS_StartGame → gameInitResult e r = false →
      (!r.w.QuitAfterGame || r.w.NextMission.isSome) = false →
      GameTick e (GameTick e r) = GameTick e r) := by
  have hq := QuitGame_state e r
  have hg : r.w.AppState = C4AS_StartGame → gameInitResult e r = false →
      (GameTick e r).w.AppState =
        (if !r.w.QuitAfterGame || r.w.NextMission.isSome then C4AS_AfterGame
         else C4AS_Quit) := by
    intro hs hf
    have hk := afterGameInit_keeps e he r
    rw [GameTick_startGame e r hs, startGame_failed e r hf, QuitGame_state]
    split <;> simp only [hk.2.1, hk.2.2.1]
  refine ⟨hq, hg, GameTick_afterGame_log e r, ?_, ?_, ?_, ?_⟩
  · intro hc
    rw [if_pos hc] at hq
    have hl : (QuitGame e r).log = r.log := by
      unfold QuitGame
      rw [if_pos hc]
      rfl
    refine ⟨hl, ?_⟩
    rw [← hl]
    exact GameTick_afterGame_log e _ hq
  · intro hc
    rw [if_neg (by simp [hc])] at hq
    exact GameTick_quit e _ hq
  · intro hs hf hc
    have h := hg hs hf
    rw [if_pos hc] at h
    exact GameTick_afterGame_log e _ h
  · intro hs hf hc
    have h := hg hs hf
    rw [if_neg (by simp [hc])] at h
    exact GameTick_quit e _ h

/-- Witness of C15: `QuitGame` in `C4AS_Game` with `QuitAfterGame` clear and
no mission pending leaves `C4AS_AfterGame`, and the dispatch that follows
starts with `Game.Clear()`. -/
theorem C15_game_end_state_witness :
    (QuitGame calm ⟨{ AppWorld.initial with AppState := C4AS_Game }, []⟩).w.AppState
      = C4AS_AfterGame ∧
    ∃ rest, (GameTick calm
        (QuitGame calm ⟨{ AppWorld.initial with AppState := C4AS_Game }, []⟩)).log
      = [] ++ (Ext.GameClear, C4AS_AfterGame) :: rest :=
  ⟨(C15_game_end_state calm (fun _ _ => ⟨rfl, rfl, rfl, rfl⟩)
      ⟨{ AppWorld.initial with AppState := C4AS_Game }, []⟩).1,
   ((C15_game_end_state calm (fun _ _ => ⟨rfl, rfl, rfl, rfl⟩)
      ⟨{ AppWorld.initial with AppState := C4AS_Game }, []⟩).2.2.2.1 (by decide)).2⟩

/-- Counterexample to C15 as stated: with `QuitAfterGame` set and no mission
pending, `QuitGame` called in `C4AS_Game` leaves `C4AS_Quit`, and so does a
`C4AS_StartGame` dispatch in which `Game.Init()` fails; neither run calls
`Game.Clear()`. -/
theorem C15_counterexample :
    (QuitGame calm
        ⟨{ AppWorld.initial with AppState := C4AS_Game, QuitAfterGame := true }, []⟩).w.AppState
      = C4AS_Quit ∧
    (QuitGame calm
        ⟨{ AppWorld.initial with AppState := C4AS_Game, QuitAfterGame := true }, []⟩).log
      = [(Ext.ConfigSave, C4AS_Game), (Ext.StartupUnload, C4AS_Game),
          (Ext.ClearFonts, C4AS_Game), (Ext.AbstractAppQuit, C4AS_Game)] ∧
    (GameTick (failingAt [Ext.GameInit])
        ⟨{ AppWorld.initial with AppState := C4AS_StartGame, QuitAfterGame := true },
          []⟩).w.AppState
      = C4AS_Quit ∧
    (GameTick (failingAt [Ext.GameInit])
        ⟨{ AppWorld.initial with AppState := C4AS_StartGame, QuitAfterGame := true },
          []⟩).log
      = [(Ext.CloseStartup, C4AS_StartGame), (Ext.GameInit, C4AS_Game),
          (Ext.ConfigSave, C4AS_Game), (Ext.StartupUnload, C4AS_Game),
          (Ext.ClearFonts, C4AS_Game), (Ext.AbstractAppQuit, C4AS_Game)] := by
  decide

/-! ## Lifecycle: starting a game -/

theorem Quit_log_mem (e : Env) (r : Run) (a : Ext × C4AppState) (h : a ∈ r.log) :
    a ∈ (Quit e r).log := by
  unfold Quit
  by_cases hc : r.w.fConfigLoaded = true <;>
    simp [hc, Run.setAppState, Run.call, h]

theorem QuitGame_log_mem (e : Env) (r : Run) (a : Ext × C4AppState) (h : a ∈ r.log) :
    a ∈ (QuitGame e r).log := by
  unfold QuitGame
  split
  · exact h
  · exact Quit_log_mem e r a h

theorem afterGameInit_log (e : Env) (r : Run) :
    (afterGameInit e r).log =
      r.log ++ [(Ext.CloseStartup, r.w.AppState), (Ext.GameInit, C4AS_Game)] := by
  simp [afterGameInit, beforeGameInit, Run.call, Run.setAppState]

theorem startGame_log_mem (e : Env) (r : Run) :
    (Ext.GameInit, C4AS_Game) ∈ (GameTickStartGame e r).log := by
  have hmem : (Ext.GameInit, C4AS_Game) ∈ (afterGameInit e r).log := by
    rw [afterGameInit_log]
    simp
  cases hf : gameInitResult e r
  · rw [startGame_failed e r hf]
    apply QuitGame_log_mem
    split <;> exact hmem
  · rw [startGame_succeeded e r hf]
    split
    · rw [call_log]
      exact List.mem_append_left _ hmem
    · exact hmem

theorem QuitGame_not_game (e : Env) (r : Run) : (QuitGame e r).w.AppState ≠ C4AS_Game := by
  rw [QuitGame_state]
  split <;> decide

/-- C16 (as amended): a `C4AS_StartGame` dispatch sets `AppState = C4AS_Game`
before it calls `Game.Init()`, so `Game.Init()` and whatever it re-enters
observe `C4AS_Game`; after the dispatch the state is `C4AS_Game` only if
`Game.Init()` returned success, and it is `C4AS_Game` whenever it did and the
outside calls do not write the application's members. -/
theorem C16_game_state_before_init (e : Env) (r : Run)
    (hs : r.w.AppState = C4AS_StartGame) :
    (beforeGameInit e r).w.AppState = C4AS_Game ∧
    (Ext.GameInit, C4AS_Game) ∈ (GameTick e r).log ∧
    ((GameTick e r).w.AppState = C4AS_Game → gameInitResult e r = true) ∧
    (KeepsApplication e → gameInitResult e r = true →
      (GameTick e r).w.AppState = C4AS_Game) := by
  rw [GameTick_startGame e r hs]
  refine ⟨rfl, startGame_log_mem e r, ?_, ?_⟩
  · intro hg
    cases hf : gameInitResult e r
    · rw [startGame_failed e r hf] at hg
      exact absurd hg (QuitGame_not_game e _)
    · rfl
  · intro he hf
    have hk := afterGameInit_keeps e he r
    rw [startGame_succeeded e r hf]
    split
    · rw [(call_keeps e he Ext.SetVideoMode _).1]
      exact hk.1
    · exact hk.1

/-- Witness of C16: a `C4AS_StartGame` dispatch with every outside call
succeeding. -/
theorem C16_game_state_before_init_witness :
    (Ext.GameInit, C4AS_Game) ∈
      (GameTick calm ⟨{ AppWorld.initial with AppState := C4AS_StartGame }, []⟩).log :=
  (C16_game_state_before_init calm
    ⟨{ AppWorld.initial with AppState := C4AS_StartGame }, []⟩ rfl).2.1

/-- Counterexample to C16 as stated: in a `C4AS_StartGame` dispatch the call
of `Game.Init()` is made with `AppState` already `C4AS_Game`, also when
`Game.Init()` then fails. -/
theorem C16_counterexample :
    (GameTick (failingAt [Ext.GameInit])
        ⟨{ AppWorld.initial with AppState := C4AS_StartGame }, []⟩).log
      = [(Ext.CloseStartup, C4AS_StartGame), (Ext.GameInit, C4AS_Game)] ∧
    (beforeGameInit (failingAt [Ext.GameInit])
        ⟨{ AppWorld.initial with AppState := C4AS_StartGame }, []⟩).w.AppState
      = C4AS_Game ∧
    gameInitResult (failingAt [Ext.GameInit])
        ⟨{ AppWorld.initial with AppState := C4AS_StartGame }, []⟩ = false := by
  decide

theorem Quit_flag (e : Env) (he : KeepsQuitWithError e) (r : Run) :
    (Quit e r).w.fQuitWithError = r.w.fQuitWithError := by
  unfold Quit
  by_cases hc : r.w.fConfigLoaded = true <;>
    simp [hc, Run.setAppState, Run.call, he _ _]

theorem QuitGame_flag (e : Env) (he : KeepsQuitWithError e) (r : Run) :
    (QuitGame e r).w.fQuitWithError = r.w.fQuitWithError := by
  unfold QuitGame
  split
  · rfl
  · exact Quit_flag e he r

theorem afterGameInit_flag (e : Env) (he : KeepsQuitWithError e) (r : Run) :
    (afterGameInit e r).w.fQuitWithError = r.w.fQuitWithError := by
  simp [afterGameInit, beforeGameInit, Run.call, Run.setAppState, he _ _]

/-- C17: in a `C4AS_StartGame` dispatch (outside calls not writing
`Game.fQuitWithError`), the flag is set to true if `Game.Init()` failed and
`C4GameLobby::UserAbort` is false after it; in every other case (success, or
failure with `UserAbort` set) the flag keeps the value it had. -/
theorem C17_error_flag (e : Env) (he : KeepsQuitWithError e) (r : Run)
    (hs : r.w.AppState = C4AS_StartGame) :
    (GameTick e r).w.fQuitWithError =
      (if gameInitResult e r = false ∧ (afterGameInit e r).w.UserAbort = false then true
       else r.w.fQuitWithError) := by
  rw [GameTick_startGame e r hs]
  have hfl := afterGameInit_flag e he r
  cases hf : gameInitResult e r
  · rw [startGame_failed e r hf, QuitGame_flag e he]
    cases hu : (afterGameInit e r).w.UserAbort <;> simp [hfl]
  · rw [startGame_succeeded e r hf]
    split
    · rw [call_w, he]
      simp [hfl]
    · simp [hfl]

/-- Witness of C17: `Game.Init()` fails without a user abort and the flag is
set. -/
theorem C17_error_flag_witness :
    (GameTick (failingAt [Ext.GameInit])
        ⟨{ AppWorld.initial with AppState := C4AS_StartGame }, []⟩).w.fQuitWithError
      = true :=
  C17_error_flag (failingAt [Ext.GameInit]) (fun _ _ => rfl)
    ⟨{ AppWorld.initial with AppState := C4AS_StartGame }, []⟩ rfl

/-! ## Lifecycle: pre-initialisation and the state after a game -/

theorem PreInitState_state (e : Env) (he : KeepsApplication e) (f : Bool) (r : Run) :
    (PreInitState e f r).w.AppState = (if f then C4AS_Startup else C4AS_StartGame) := by
  unfold PreInitState
  cases f
  · rfl
  · simp only [if_true]
    split
    · rw [(call_keeps e he Ext.InitStartup _).1]
      rfl
    · rfl

theorem PreInit_state (e : Env) (he : KeepsApplication e) (r : Run)
    (hok : (PreInit e r).2 = true) :
    (PreInit e r).1.w.AppState =
      (if (e Ext.HasScenario r.w).2 = true then C4AS_StartGame else C4AS_Startup) := by
  unfold PreInit at hok ⊢
  simp only at hok ⊢
  split at hok
  · cases hok
  · rw [if_neg (by assumption)]
    split at hok
    · cases hok
    · rw [if_neg (by assumption)]
      simp only [PreInitState_state e he, call_result]
      cases (e Ext.HasScenario r.w).2 <;> rfl

/-- C18: a dispatch in `C4AS_PreInit` (outside calls not writing the
application's members) leaves `C4AS_Quit` if `PreInit()` returns false,
`C4AS_StartGame` if it returns true and `Game.HasScenario()` was true, and
`C4AS_Startup` if it returns true and `Game.HasScenario()` was false. -/
theorem C18_preinit_dispatch (e : Env) (he : KeepsApplication e) (r : Run)
    (hs : r.w.AppState = C4AS_PreInit) :
    (GameTick e r).w.AppState =
      (if (PreInit e r).2 = false then C4AS_Quit
       else if (e Ext.HasScenario r.w).2 = true then C4AS_StartGame
       else C4AS_Startup) := by
  unfold GameTick
  rw [hs]
  simp only
  cases hok : (PreInit e r).2
  · simp only [Bool.not_false, if_true]
    exact Quit_state e _
  · simp only [Bool.not_true, Bool.false_eq_true, if_false]
    exact PreInit_state e he r hok

/-- Witness of C18: no scenario selected and every call succeeding gives
`C4AS_Startup`. -/
theorem C18_preinit_dispatch_witness :
    (GameTick (failingAt [Ext.HasScenario])
        ⟨{ AppWorld.initial with AppState := C4AS_PreInit }, []⟩).w.AppState
      = C4AS_Startup :=
  C18_preinit_dispatch (failingAt [Ext.HasScenario]) (fun _ _ => ⟨rfl, rfl, rfl, rfl⟩)
    ⟨{ AppWorld.initial with AppState := C4AS_PreInit }, []⟩ rfl

/-- C19: a dispatch in `C4AS_AfterGame` with a pending mission `m` (outside
calls not writing the application's members) leaves `C4AS_PreInit`, calls
`Game.Clear()` and then `Game.SetScenarioFilename` once, with exactly `m`,
and leaves `NextMission` empty. -/
theorem C19_pending_mission (e : Env) (he : KeepsApplication e) (r : Run) (m : String)
    (hs : r.w.AppState = C4AS_AfterGame) (hm : r.w.NextMission = some m) :
    (GameTick e r).w.AppState = C4AS_PreInit ∧
    (GameTick e r).w.NextMission = none ∧
    (GameTick e r).log =
      r.log ++ [(Ext.GameClear, C4AS_AfterGame), (Ext.SetScenarioFilename m, C4AS_PreInit)] := by
  have h1 := call_keeps e he Ext.GameClear r
  rw [GameTick_afterGame e r hs]
  unfold GameTickAfterGame
  have hnm : (r.call e Ext.GameClear).1.w.NextMission = some m := by rw [h1.2.2.1, hm]
  simp only [hnm, Option.isSome_some, Bool.not_true, Bool.and_false, Bool.false_and,
    Bool.false_eq_true, if_false, Run.setAppState]
  refine ⟨?_, ?_⟩
  · exact (he _ _).1
  · simp [Run.call, hs]

/-- Witness of C19: the pending mission "Next.ocs". -/
theorem C19_pending_mission_witness :
    (GameTick calm ⟨{ AppWorld.initial with
        AppState := C4AS_AfterGame, NextMission := some "Next.ocs" }, []⟩).log =
      [(Ext.GameClear, C4AS_AfterGame), (Ext.SetScenarioFilename "Next.ocs", C4AS_PreInit)] :=
  (C19_pending_mission calm (fun _ _ => ⟨rfl, rfl, rfl, rfl⟩)
    ⟨{ AppWorld.initial with AppState := C4AS_AfterGame, NextMission := some "Next.ocs" }, []⟩
    "Next.ocs" rfl rfl).2.2

/-- C20 (as amended): a dispatch in `C4AS_AfterGame` (outside calls not
writing the application's members) always leaves `C4AS_PreInit`, also with no
mission pending and `QuitAfterGame` set. The quit-after-game policy acts
earlier: `QuitGame` with `QuitAfterGame` set and no mission pending leaves
`C4AS_Quit` without passing through `C4AS_AfterGame`. -/
theorem C20_after_game_dispatch (e : Env) (he : KeepsApplication e) (r : Run)
    (hs : r.w.AppState = C4AS_AfterGame) :
    (GameTick e r).w.AppState = C4AS_PreInit ∧
    (∀ q : Run, q.w.QuitAfterGame = true → q.w.NextMission = none →
      (QuitGame e q).w.AppState = C4AS_Quit) := by
  constructor
  · rw [GameTick_afterGame e r hs]
    unfold GameTickAfterGame
    simp only
    split
    · rename_i m hm
      simp only [Run.setAppState]
      exact ((he _ _).1)
    · split <;> rfl
  · intro q hq hn
    rw [QuitGame_state, hq, hn]
    rfl

/-- Witness of C20: `C4AS_AfterGame` with `QuitAfterGame` set and no mission
pending. -/
theorem C20_after_game_dispatch_witness :
    (GameTick calm ⟨{ AppWorld.initial with
        AppState := C4AS_AfterGame, QuitAfterGame := true }, []⟩).w.AppState = C4AS_PreInit :=
  (C20_after_game_dispatch calm (fun _ _ => ⟨rfl, rfl, rfl, rfl⟩)
    ⟨{ AppWorld.initial with AppState := C4AS_AfterGame, QuitAfterGame := true }, []⟩ rfl).1

/-- Counterexample to C20 as stated: in `C4AS_Game` with `QuitAfterGame` set,
`OpenGame(NULL)` leaves `C4AS_AfterGame` with no mission pending; the next
dispatch moves the state to `C4AS_PreInit`, not to `C4AS_Quit`. -/
theorem C20_counterexample :
    (OpenGame calm (fun f => f) none
        ⟨{ AppWorld.initial with AppState := C4AS_Game, QuitAfterGame := true }, []⟩).w.AppState
      = C4AS_AfterGame ∧
    (OpenGame calm (fun f => f) none
        ⟨{ AppWorld.initial with AppState := C4AS_Game, QuitAfterGame := true }, []⟩).w.NextMission
      = none ∧
    (OpenGame calm (fun f => f) none
        ⟨{ AppWorld.initial with AppState := C4AS_Game, QuitAfterGame := true },
          []⟩).w.QuitAfterGame
      = true ∧
    (GameTick calm (OpenGame calm (fun f => f) none
        ⟨{ AppWorld.initial with AppState := C4AS_Game, QuitAfterGame := true },
          []⟩)).w.AppState
      = C4AS_PreInit := by
  decide

/-! ## Lifecycle: quitting -/

theorem OpenGame_state (e : Env) (fix : String → String) (scenario : Option String) (r : Run) :
    (OpenGame e fix scenario r).w.AppState =
      (if r.w.AppState = C4AS_Startup then C4AS_StartGame else C4AS_AfterGame) := by
  unfold OpenGame
  split <;> rfl

theorem OnCommand_state (e : Env) (he : KeepsApplication e) (szCmd : String) (r : Run) :
    (OnCommand e szCmd r).w.AppState =
      (if r.w.AppState = C4AS_Startup then C4AS_PreInit else r.w.AppState) := by
  unfold OnCommand
  by_cases hg : r.w.AppState = C4AS_Game
  · rw [if_pos hg, (call_keeps e he _ r).1, if_neg (by rw [hg]; decide)]
  · rw [if_neg hg]
    by_cases hs : r.w.AppState = C4AS_Startup
    · rw [if_pos hs, if_pos hs]
      simp only
      rw [(call_keeps e he _ _).1]
      rfl
    · rw [if_neg hs, if_neg hs]

/-- C22 (as amended): in `C4AS_Quit`, `GameTick`, `Quit` and (outside calls
not writing the application's members) `OnCommand` leave the state
`C4AS_Quit`; `OpenGame`, with or without a scenario, moves it to
`C4AS_AfterGame`, and `QuitGame` moves it to `C4AS_AfterGame` when
`QuitAfterGame` is false or a mission is pending and leaves `C4AS_Quit`
otherwise. -/
theorem C22_operations_in_quit (e : Env) (he : KeepsApplication e) (r : Run)
    (hs : r.w.AppState = C4AS_Quit) :
    (GameTick e r).w.AppState = C4AS_Quit ∧
    (Quit e r).w.AppState = C4AS_Quit ∧
    (∀ szCmd : String, (OnCommand e szCmd r).w.AppState = C4AS_Quit) ∧
    (∀ (fix : String → String) (scenario : Option String),
      (OpenGame e fix scenario r).w.AppState = C4AS_AfterGame) ∧
    (QuitGame e r).w.AppState =
      (if !r.w.QuitAfterGame || r.w.NextMission.isSome then C4AS_AfterGame else C4AS_Quit) := by
  refine ⟨?_, Quit_state e r, ?_, ?_, QuitGame_state e r⟩
  · rw [GameTick_quit e r hs, hs]
  · intro szCmd
    rw [OnCommand_state e he, hs, if_neg (by decide)]
  · intro fix scenario
    rw [OpenGame_state, hs, if_neg (by decide)]

/-- Witness of C22: `OpenGame` with a scenario in `C4AS_Quit`. -/
theorem C22_operations_in_quit_witness :
    (OpenGame calm (fun f => f) (some "Next.ocs")
      ⟨{ AppWorld.initial with AppState := C4AS_Quit }, []⟩).w.AppState = C4AS_AfterGame :=
  (C22_operations_in_quit calm (fun _ _ => ⟨rfl, rfl, rfl, rfl⟩)
    ⟨{ AppWorld.initial with AppState := C4AS_Quit }, []⟩ rfl).2.2.2.1 (fun f => f)
    (some "Next.ocs")

/-- Counterexample to C22 as stated: in `C4AS_Quit`, `OpenGame(NULL)`,
`OpenGame` with a scenario and `QuitGame` (with `QuitAfterGame` false) each
leave `C4AS_AfterGame`; the next dispatch then goes on to `C4AS_PreInit`. -/
theorem C22_counterexample :
    (OpenGame calm (fun f => f) none
      ⟨{ AppWorld.initial with AppState := C4AS_Quit }, []⟩).w.AppState = C4AS_AfterGame ∧
    (OpenGame calm (fun f => f) (some "Next.ocs")
      ⟨{ AppWorld.initial with AppState := C4AS_Quit }, []⟩).w.AppState = C4AS_AfterGame ∧
    (QuitGame calm
      ⟨{ AppWorld.initial with AppState := C4AS_Quit }, []⟩).w.AppState = C4AS_AfterGame ∧
    (GameTick calm (QuitGame calm
      ⟨{ AppWorld.initial with AppState := C4AS_Quit }, []⟩)).w.AppState = C4AS_PreInit := by
  decide

/-- C23 (as amended): once `AppState` is `C4AS_Quit` the dispatch
`C4Application::GameTick` is a no-op without outside calls, but a timer wake
is not: `Execute` never reads `AppState`. With `Application.GameTick()`
changing nothing, a wake past the gate still calls it exactly when the tick is
due, then moves `tLastGameTick` as in any other state, calls
`Application.Draw()` exactly when `Game.DoSkipFrame` is clear, and clears a
set `Game.DoSkipFrame`. -/
theorem C23_wake_in_quit (e : Env) (r : Run) (hs : r.w.AppState = C4AS_Quit)
    (c : Collaborators) (hq : ∀ v, c.GameTick v = v)
    (hd : ∀ v, (c.Draw v).Timer.tLastGameTick = v.Timer.tLastGameTick)
    (k : Wake) (w : World) (hgate : k.CheckAndReset = true) :
    GameTick e r = r ∧
    (Call.GameTick ∈ (C4ApplicationGameTimer.Execute c k w).2 ↔
      C4ApplicationGameTimer.tickDue k.tNow w = true) ∧
    (Call.Draw ∈ (C4ApplicationGameTimer.Execute c k w).2 ↔ w.Game.DoSkipFrame = false) ∧
    (C4ApplicationGameTimer.Execute c k w).1.Timer.tLastGameTick =
      (if C4ApplicationGameTimer.tickDue k.tNow w then
        (C4ApplicationGameTimer.compensate k.tNow
          (C4ApplicationGameTimer.advance k.tNow w.Timer)).tLastGameTick
       else w.Timer.tLastGameTick) ∧
    (w.Game.DoSkipFrame = true →
      (C4ApplicationGameTimer.Execute c k w).1.Game.DoSkipFrame = false) := by
  have hkeep : KeepsLastGameTick c := fun v => ⟨by rw [hq v], hd v⟩
  have hskip : TickKeepsDoSkipFrame c := fun v => by rw [hq v]
  refine ⟨GameTick_quit e r hs, C4ApplicationGameTimer.gameTick_mem_iff c k w hgate, ?_, ?_, ?_⟩
  · rw [C4ApplicationGameTimer.draw_mem_iff c k w hgate,
      C4ApplicationGameTimer.tickStage_skip c hskip]
  · rw [C4ApplicationGameTimer.Execute_last c hkeep, hgate, Bool.true_and]
  · intro hset
    rw [C4ApplicationGameTimer.Execute_skip c k w hgate,
      C4ApplicationGameTimer.tickStage_skip c hskip, hset]
    rfl

/-- Witness of C23: the application in `C4AS_Quit`, a wake at 100 of a timer
last ticked at 0 with interval 28. -/
theorem C23_wake_in_quit_witness :
    Call.Draw ∈ (C4ApplicationGameTimer.Execute idle ⟨true, 100, 100, 101⟩
      ⟨⟨28, C4TimeMilliseconds.ms 0, 28, 0⟩, ⟨false, false, false⟩⟩).2 ↔
      (false = false) :=
  (C23_wake_in_quit calm ⟨{ AppWorld.initial with AppState := C4AS_Quit }, []⟩ rfl
    idle (fun _ => rfl) (fun _ => rfl) ⟨true, 100, 100, 101⟩
    ⟨⟨28, C4TimeMilliseconds.ms 0, 28, 0⟩, ⟨false, false, false⟩⟩ rfl).2.2.1

/-- Counterexample to C23 as stated: with the application in `C4AS_Quit` (its
dispatch changes nothing and calls nothing), a wake at 100 of a timer last
ticked at 0 with interval 28 calls `GameTick` and `Draw` and moves
`tLastGameTick` to 64; a wake with `Game.DoSkipFrame` set clears the flag. -/
theorem C23_counterexample :
    (GameTick calm ⟨{ AppWorld.initial with AppState := C4AS_Quit }, []⟩).log = [] ∧
    (C4ApplicationGameTimer.Execute idle ⟨true, 100, 100, 101⟩
      ⟨⟨28, C4TimeMilliseconds.ms 0, 28, 0⟩, ⟨false, false, false⟩⟩).2
        = [Call.GameTick, Call.Draw] ∧
    (C4ApplicationGameTimer.Execute idle ⟨true, 100, 100, 101⟩
      ⟨⟨28, C4TimeMilliseconds.ms 0, 28, 0⟩, ⟨false, false, false⟩⟩).1.Timer.tLastGameTick
        = C4TimeMilliseconds.ms 64 ∧
    (C4ApplicationGameTimer.Execute idle ⟨true, 100, 100, 101⟩
      ⟨⟨28, C4TimeMilliseconds.ms 0, 28, 0⟩, ⟨false, true, false⟩⟩).1.Game.DoSkipFrame
        = false := by
  decide

/-! ## Lifecycle: the simulation step -/

theorem call_noexec (e : Env) (x : Ext) (hx : x ≠ Ext.GameExecute) (r : Run)
    (h : ∀ a, (Ext.GameExecute, a) ∉ r.log) :
    ∀ a, (Ext.GameExecute, a) ∉ (r.call e x).1.log := by
  intro a hmem
  rw [call_log, List.mem_append, List.mem_singleton] at hmem
  rcases hmem with hmem | hmem
  · exact h a hmem
  · exact hx (congrArg Prod.fst hmem).symm

theorem Quit_noexec (e : Env) (r : Run) (h : ∀ a, (Ext.GameExecute, a) ∉ r.log) :
    ∀ a, (Ext.GameExecute, a) ∉ (Quit e r).log := by
  intro a
  unfold Quit
  simp only [Run.call, Run.setAppState]
  split_ifs <;> simp [h a]

theorem QuitGame_noexec (e : Env) (r : Run) (h : ∀ a, (Ext.GameExecute, a) ∉ r.log) :
    ∀ a, (Ext.GameExecute, a) ∉ (QuitGame e r).log := by
  unfold QuitGame
  split
  · exact h
  · exact Quit_noexec e r h

theorem PreInitLoader_noexec (e : Env) (f : Bool) (r : Run)
    (h : ∀ a, (Ext.GameExecute, a) ∉ r.log) :
    ∀ a, (Ext.GameExecute, a) ∉ (PreInitLoader e f r).1.log := by
  intro a
  unfold PreInitLoader
  simp only [Run.call]
  split_ifs <;> simp [h a]

theorem PreInitSystems_noexec (e : Env) (f : Bool) (r : Run)
    (h : ∀ a, (Ext.GameExecute, a) ∉ r.log) :
    ∀ a, (Ext.GameExecute, a) ∉ (PreInitSystems e f r).1.log := by
  intro a
  unfold PreInitSystems
  simp only [Run.call]
  split_ifs <;> simp [h a]

theorem PreInitState_noexec (e : Env) (f : Bool) (r : Run)
    (h : ∀ a, (Ext.GameExecute, a) ∉ r.log) :
    ∀ a, (Ext.GameExecute, a) ∉ (PreInitState e f r).log := by
  intro a
  unfold PreInitState
  simp only [Run.call, Run.setAppState]
  split_ifs <;> simp [h a]

theorem PreInit_noexec (e : Env) (r : Run) (h : ∀ a, (Ext.GameExecute, a) ∉ r.log) :
    ∀ a, (Ext.GameExecute, a) ∉ (PreInit e r).1.log := by
  have h1 := call_noexec e Ext.HasScenario (by decide) r h
  have h2 := PreInitLoader_noexec e (!(r.call e Ext.HasScenario).2) _ h1
  have h3 := PreInitSystems_noexec e (!(r.call e Ext.HasScenario).2) _ h2
  have h4 := PreInitState_noexec e (!(r.call e Ext.HasScenario).2) _ h3
  intro a
  unfold PreInit
  simp only
  split_ifs
  · exact h2 a
  · exact h3 a
  · exact h4 a

theorem StartGame_noexec (e : Env) (r : Run) (h : ∀ a, (Ext.GameExecute, a) ∉ r.log) :
    ∀ a, (Ext.GameExecute, a) ∉ (GameTickStartGame e r).log := by
  have h1 : ∀ a, (Ext.GameExecute, a) ∉ (afterGameInit e r).log :=
    call_noexec e Ext.GameInit (by decide) _ (call_noexec e Ext.CloseStartup (by decide) r h)
  cases hf : gameInitResult e r
  · rw [startGame_failed e r hf]
    apply QuitGame_noexec
    split
    · exact h1
    · exact h1
  · rw [startGame_succeeded e r hf]
    split
    · exact call_noexec e _ (by decide) _ h1
    · exact h1

theorem AfterGame_noexec (e : Env) (r : Run) (h : ∀ a, (Ext.GameExecute, a) ∉ r.log) :
    ∀ a, (Ext.GameExecute, a) ∉ (GameTickAfterGame e r).log := by
  intro a
  unfold GameTickAfterGame
  simp only [Run.call, Run.setAppState]
  split <;> split_ifs <;> simp [h a]

theorem Game_exec_iff (e : Env) (w : AppWorld) (hs : w.AppState = C4AS_Game)
    (a : C4AppState) :
    (Ext.GameExecute, a) ∈ (GameTickGame e ⟨w, []⟩).log ↔
      (w.IsRunning = true ∧ a = C4AS_Game) := by
  unfold GameTickGame
  simp only [Run.call]
  cases hr : w.IsRunning
  · simp only [Bool.false_eq_true, if_false]
    split_ifs <;> simp
  · simp only [if_true]
    split_ifs <;> simp [hs, eq_comm]

/-- C24: among the outside calls of one `GameTick` dispatch, `Game.Execute()`
occurs if and only if the state at dispatch is `C4AS_Game` and
`Game.IsRunning` is true (and it is then made in state `C4AS_Game`); in every
other state, and in `C4AS_Game` with `IsRunning` false, the dispatch makes no
simulation step, whatever the outside calls do. -/
theorem C24_simulation_step (e : Env) (w : AppWorld) (a : C4AppState) :
    (Ext.GameExecute, a) ∈ (GameTick e ⟨w, []⟩).log ↔
      (w.AppState = C4AS_Game ∧ w.IsRunning = true ∧ a = C4AS_Game) := by
  have h0 : ∀ b, (Ext.GameExecute, b) ∉ (⟨w, []⟩ : Run).log := fun b hb => by cases hb
  have hno : ∀ {r : Run} {st : C4AppState}, (∀ b, (Ext.GameExecute, b) ∉ r.log) →
      st ≠ C4AS_Game →
      ((Ext.GameExecute, a) ∈ r.log ↔ (st = C4AS_Game ∧ w.IsRunning = true ∧ a = C4AS_Game)) :=
    fun hr hne => ⟨fun hm => absurd hm (hr a), fun hc => absurd hc.1 hne⟩
  unfold GameTick
  cases hs : w.AppState
  · exact hno h0 (by decide)
  · show (Ext.GameExecute, a) ∈
      (if (!(PreInit e ⟨w, []⟩).2) = true then Quit e (PreInit e ⟨w, []⟩).1
        else (PreInit e ⟨w, []⟩).1).log ↔ _
    split
    · exact hno (Quit_noexec e _ (PreInit_noexec e _ h0)) (by decide)
    · exact hno (PreInit_noexec e _ h0) (by decide)
  · exact hno (call_noexec e Ext.MusicExecute (by decide) _
      (call_noexec e Ext.SoundExecute (by decide) _ h0)) (by decide)
  · exact hno (StartGame_noexec e _ h0) (by decide)
  · show (Ext.GameExecute, a) ∈ (GameTickGame e ⟨w, []⟩).log ↔ _
    rw [Game_exec_iff e w hs a]
    simp
  · exact hno (AfterGame_noexec e _ h0) (by decide)
  · exact hno h0 (by decide)

/-! ## Lifecycle: the events `OpenGame`, `QuitGame` and `OnCommand` -/

/-- C25 (as amended): `OpenGame` in `C4AS_Startup` moves the state to
`C4AS_StartGame`, passing a given scenario to `Game.SetScenarioFilename`; in
every other state it is not a no-op: it sets `NextMission` to the scenario
(empty for NULL) and moves the state to `C4AS_AfterGame`. -/
theorem C25_open_game (e : Env) (fix : String → String) (scenario : Option String)
    (r : Run) :
    (OpenGame e fix scenario r).w.AppState =
      (if r.w.AppState = C4AS_Startup then C4AS_StartGame else C4AS_AfterGame) ∧
    (r.w.AppState = C4AS_Startup →
      (OpenGame e fix scenario r).log =
        r.log ++ (match scenario with
          | some f => [(Ext.SetScenarioFilename f, C4AS_Startup)]
          | none => [])) ∧
    (r.w.AppState ≠ C4AS_Startup →
      (OpenGame e fix scenario r).w.NextMission = scenario.map fix ∧
        (OpenGame e fix scenario r).log = r.log) := by
  refine ⟨OpenGame_state e fix scenario r, ?_, ?_⟩
  · intro hs
    unfold OpenGame
    rw [if_pos hs]
    cases scenario <;> simp [Run.call, Run.setAppState, hs]
  · intro hs
    unfold OpenGame
    rw [if_neg hs]
    cases scenario <;> exact ⟨rfl, rfl⟩

/-- Witness of C25: `OpenGame` with a scenario in `C4AS_Game`. -/
theorem C25_open_game_witness :
    (OpenGame calm (fun f => f) (some "Next.ocs")
        ⟨{ AppWorld.initial with AppState := C4AS_Game }, []⟩).w.NextMission
      = (some "Next.ocs").map (fun f => f) :=
  ((C25_open_game calm (fun f => f) (some "Next.ocs")
    ⟨{ AppWorld.initial with AppState := C4AS_Game }, []⟩).2.2 (by decide)).1

/-- Counterexample to C25 as stated: `OpenGame` with a scenario received in
`C4AS_Game` changes the state to `C4AS_AfterGame` and sets `NextMission`;
received in `C4AS_PreInit` without a scenario it changes the state to
`C4AS_AfterGame` as well. -/
theorem C25_counterexample :
    (OpenGame calm (fun f => f) (some "Next.ocs")
        ⟨{ AppWorld.initial with AppState := C4AS_Game }, []⟩).w.AppState
      = C4AS_AfterGame ∧
    (OpenGame calm (fun f => f) (some "Next.ocs")
        ⟨{ AppWorld.initial with AppState := C4AS_Game }, []⟩).w.NextMission
      = some "Next.ocs" ∧
    (OpenGame calm (fun f => f) none
        ⟨{ AppWorld.initial with AppState := C4AS_PreInit }, []⟩).w.AppState
      = C4AS_AfterGame := by
  decide

theorem Quit_mission (e : Env) (he : KeepsApplication e) (r : Run) :
    (Quit e r).w.NextMission = r.w.NextMission := by
  unfold Quit
  simp only [Run.call, Run.setAppState]
  split_ifs <;> simp [(he _ _).2.2.1]

/-- C26: `QuitGame` (outside calls not writing the application's members)
sets the state to `C4AS_AfterGame` if `QuitAfterGame` is false or a next
mission is pending, and otherwise runs `Quit`, which leaves `C4AS_Quit`; in
both cases `NextMission` is as before. -/
theorem C26_quit_game (e : Env) (he : KeepsApplication e) (r : Run) :
    (QuitGame e r).w.AppState =
      (if !r.w.QuitAfterGame || r.w.NextMission.isSome then C4AS_AfterGame else C4AS_Quit) ∧
    ((!r.w.QuitAfterGame || r.w.NextMission.isSome) = false → QuitGame e r = Quit e r) ∧
    (QuitGame e r).w.NextMission = r.w.NextMission := by
  refine ⟨QuitGame_state e r, ?_, ?_⟩
  · intro hc
    unfold QuitGame
    rw [hc]
    rfl
  · unfold QuitGame
    split
    · rfl
    · exact Quit_mission e he r

/-- Witness of C26: `QuitGame` with `QuitAfterGame` set and no mission
pending. -/
theorem C26_quit_game_witness :
    (QuitGame calm ⟨{ AppWorld.initial with
        AppState := C4AS_Game, QuitAfterGame := true }, []⟩).w.AppState = C4AS_Quit :=
  (C26_quit_game calm (fun _ _ => ⟨rfl, rfl, rfl, rfl⟩)
    ⟨{ AppWorld.initial with AppState := C4AS_Game, QuitAfterGame := true }, []⟩).1

/-- C27: `OnCommand(cmd)` (outside calls not writing the application's
members) changes `AppState` only in `C4AS_Startup`, where it assigns
`C4AS_PreInit` and then calls `Game.SetScenarioFilename(cmd)`; in
`C4AS_Game` it calls `MessageInput.ProcessInput(cmd)` and leaves the state;
in every other state it does nothing. -/
theorem C27_on_command (e : Env) (he : KeepsApplication e) (szCmd : String) (r : Run) :
    (OnCommand e szCmd r).w.AppState =
      (if r.w.AppState = C4AS_Startup then C4AS_PreInit else r.w.AppState) ∧
    (r.w.AppState = C4AS_Startup →
      (OnCommand e szCmd r).log = r.log ++ [(Ext.SetScenarioFilename szCmd, C4AS_PreInit)]) ∧
    (r.w.AppState = C4AS_Game →
      (OnCommand e szCmd r).log = r.log ++ [(Ext.ProcessInput szCmd, C4AS_Game)]) ∧
    (r.w.AppState ≠ C4AS_Startup → r.w.AppState ≠ C4AS_Game → OnCommand e szCmd r = r) := by
  refine ⟨OnCommand_state e he szCmd r, ?_, ?_, ?_⟩
  · intro hs
    unfold OnCommand
    rw [if_neg (by rw [hs]; decide), if_pos hs]
    rfl
  · intro hs
    unfold OnCommand
    rw [if_pos hs, call_log, hs]
  · intro h1 h2
    unfold OnCommand
    rw [if_neg h2, if_neg h1]

/-- Witness of C27: a command typed in `C4AS_Startup`. -/
theorem C27_on_command_witness :
    (OnCommand calm "Tutorial.ocs"
        ⟨{ AppWorld.initial with AppState := C4AS_Startup }, []⟩).w.AppState = C4AS_PreInit :=
  (C27_on_command calm (fun _ _ => ⟨rfl, rfl, rfl, rfl⟩) "Tutorial.ocs"
    ⟨{ AppWorld.initial with AppState := C4AS_Startup }, []⟩).1

/-! ## Command line: the language option -/

theorem switchOption_language (lib : CmdLineLib) (arg : String) (s : CmdLineState) :
    (switchOption lib 'L' (some arg) s).LanguageEx = lib.SCopy arg lib.CFG_MaxString ∧
      (switchOption lib 'L' (some arg) s).PortTCP = lib.atoi arg ∧
      (switchOption lib 'L' (some arg) s).PortUDP = s.PortUDP := by
  refine ⟨?_, ?_, ?_⟩ <;> simp [switchOption, caseT]

/-- C30 (the code at the failing input): `case 'L'` has no `break` and runs
on into `case 't'`. Handling `--language=de` with `PortTCP = 11112` and
`PortUDP = 11113` sets `LanguageEx` to "de" and also overwrites `PortTCP`
with `atoi("de") = 0`; `PortUDP` stays 11113. The same holds for the whole
option loop on that single option. -/
theorem C30_language_overwrites_tcp_port :
    CmdLineState.sample.PortTCP = 11112 ∧
    (switchOption stdCmdLineLib 'L' (some "de") CmdLineState.sample).LanguageEx = "de" ∧
    (switchOption stdCmdLineLib 'L' (some "de") CmdLineState.sample).PortTCP = 0 ∧
    (switchOption stdCmdLineLib 'L' (some "de") CmdLineState.sample).PortUDP = 11113 ∧
    (ParseOptions stdCmdLineLib [GetoptResult.opt 'L' (some "de")]
      CmdLineState.sample).PortTCP = 0 ∧
    (ParseOptions stdCmdLineLib [GetoptResult.opt 'u' (some "4000")]
      CmdLineState.sample).PortTCP = 11112 := by
  decide

end C4Application

/-! ## Rank system: names by rank, loading -/

namespace C4RankSystem

theorem toInt32_of_range (i : Int) (h0 : -2147483648 ≤ i) (h1 : i < 2147483648) :
    toInt32 i = i := by
  unfold toInt32
  omega

theorem rankParts_in_range (s : C4RankSystem) (iRank : Int) (hN : 1 ≤ s.iRankNum)
    (hfit : s.iRankNum * (s.iRankExtNum + 1) < 2147483648)
    (h0 : 0 ≤ iRank) (hlt : iRank < s.iRankNum * (s.iRankExtNum + 1)) :
    ReadsInRange s (rankParts s iRank) := by
  unfold rankParts
  split
  · rename_i hge
    have hNpos : (0 : Int) < s.iRankNum := by omega
    have hq : Int.tdiv iRank s.iRankNum = iRank / s.iRankNum :=
      Int.tdiv_eq_ediv h0 (by omega)
    have hm : Int.tmod iRank s.iRankNum = iRank % s.iRankNum :=
      Int.tmod_eq_emod h0 (by omega)
    have hq1 : 1 ≤ iRank / s.iRankNum := by
      have := Int.ediv_le_ediv hNpos hge
      rwa [Int.ediv_self (by omega)] at this
    have hq2 : iRank / s.iRankNum < s.iRankExtNum + 1 :=
      Int.ediv_lt_of_lt_mul hNpos (by rw [Int.mul_comm]; exact hlt)
    have hq3 : iRank / s.iRankNum ≤ iRank := Int.ediv_le_self _ h0
    have hr1 := Int.emod_nonneg iRank (by omega : s.iRankNum ≠ 0)
    have hr2 := Int.emod_lt_of_pos iRank hNpos
    have hP : s.iRankNum ≤ s.iRankNum * (s.iRankExtNum + 1) := by nlinarith
    simp only [ReadsInRange, hq, hm]
    rw [toInt32_of_range _ (by omega) (by omega)]
    omega
  · rename_i hlt2
    simp only [ReadsInRange]
    omega

/-- Reads of `GetRankName` when the product `iRankNum*(iRankExtNum+1)` fits
into `int`: for `iRankNum >= 1`, `iRankExtNum >= 0` and every `int`
`iRank >= 0` the arrays are read inside their bounds. -/
theorem GetRankName_in_range (s : C4RankSystem) (iRank : Int) (f : Bool)
    (hN : 1 ≤ s.iRankNum) (hE : 0 ≤ s.iRankExtNum)
    (hfit : s.iRankNum * (s.iRankExtNum + 1) < 2147483648)
    (h0 : 0 ≤ iRank) (h1 : iRank < 2147483648) :
    ReadsInRange s (GetRankName s iRank f) := by
  have hP : s.iRankNum ≤ s.iRankNum * (s.iRankExtNum + 1) := by nlinarith
  have hE1 : toInt32 (s.iRankExtNum + 1) = s.iRankExtNum + 1 := by
    apply toInt32_of_range
    · omega
    · nlinarith
  have hL : toInt32 (s.iRankNum * toInt32 (s.iRankExtNum + 1))
      = s.iRankNum * (s.iRankExtNum + 1) := by
    rw [hE1]
    exact toInt32_of_range _ (by omega) hfit
  unfold GetRankName
  rw [if_neg (by omega)]
  split
  · rw [if_neg (by omega)]
    simp only [hL]
    split
    · split
      · trivial
      · rw [toInt32_of_range _ (by omega) (by omega)]
        exact rankParts_in_range s _ hN hfit (by omega) (by omega)
    · exact rankParts_in_range s _ hN hfit h0 (by omega)
  · trivial

/-- The code at the counts 65536 and 65535: the `int` product
`iRankNum*(iRankExtNum+1)` is `2^32` and wraps to 0, so for `iRank = 0` with
`fReturnLastIfOver` the overflow check fires, `iRank` becomes `0 - 1`, and
`pszRankNames` is read at index -1. -/
theorem GetRankName_at_overflow :
    toInt32 (65536 * toInt32 (65535 + 1)) = 0 ∧
    GetRankName ⟨some [], some [], some [], 65536, 65535, 1000⟩ 0 true
      = RankNameResult.simple (-1) ∧
    GetRankName ⟨some [], some [], some [], 65536, 65535, 1000⟩ 0 false
      = RankNameResult.empty := by
  decide

set_option maxRecDepth 100000 in
/-- C29 (the code at the failing input): both loops of `Load` stop at
`i < iSize` and never reach the terminating zero at index `iSize`, so a last
line without a line break is neither counted nor stored. The file
"Private", line break, "Sergeant" loads one name, "Private"; with a line
break at the end it loads both; the file "Private" alone loads nothing and
`Load` fails. On a file with a comment, a setting, an extension and two
names, each terminated, the stored names and extensions are as many as
counted. -/
theorem C29_last_line_without_break_dropped :
    (Load stdRankLib (some "Private\nSergeant".toList) 1000 Default).1 = true ∧
    (Load stdRankLib (some "Private\nSergeant".toList) 1000 Default).2.iRankNum = 1 ∧
    storedNames (Load stdRankLib (some "Private\nSergeant".toList) 1000 Default).2
      = ["Private"] ∧
    storedNames (Load stdRankLib (some "Private\nSergeant\n".toList) 1000 Default).2
      = ["Private", "Sergeant"] ∧
    (Load stdRankLib (some "Private".toList) 1000 Default).1 = false ∧
    (Load stdRankLib
      (some "#c\r\nBase=500\r\nPrivate\r\n*Star %s\r\nSergeant\r\n".toList) 1000
      Default).2
      = { szRankNames := some
            "#c\x00\x00Base\x00500\x00\x00Private\x00\x00*Star %s\x00\x00Sergeant\x00\x00\x00".toList
          pszRankNames := some [14, 33]
          pszRankExtensions := some [24]
          iRankNum := 2
          iRankExtNum := 1
          RankBase := 500 } := by
  decide

/-! ### The counting pass on terminated lines -/

theorem loadBuffer_fileOfLines (lines : List (List Char)) (hl : ∀ l ∈ lines, IsLine l) :
    loadBuffer (fileOfLines lines) = zeroTerminated lines ++ ['\x00'] := by
  unfold loadBuffer
  congr 1
  induction lines with
  | nil => rfl
  | cons l ls ih =>
    have hline : IsLine l := hl l (List.mem_cons_self _ _)
    have hmap : l.map (fun ch => if ch = '\n' ∨ ch = '\r' then '\x00' else ch) = l := by
      conv_rhs => rw [← List.map_id l]
      apply List.map_congr_left
      intro ch hch
      have := hline ch hch
      simp [this.1, this.2.1]
    simp only [fileOfLines, zeroTerminated, List.map_append, List.map_cons, hmap]
    rw [ih (fun x hx => hl x (List.mem_cons_of_mem _ hx))]
    simp

theorem length_fileOfLines (lines : List (List Char)) :
    (fileOfLines lines).length = (zeroTerminated lines).length := by
  induction lines with
  | nil => rfl
  | cons l ls ih => simp [fileOfLines, zeroTerminated, ih]

theorem countStep_nonzero (lib : RankLib) (buf : List Char) (st : CountState) (i : Nat)
    (h : buf.getD i '\x00' ≠ '\x00') : countStep lib buf st i = st := by
  unfold countStep
  rw [if_neg h]

theorem countLoop_nonzero (lib : RankLib) (buf : List Char) (st : CountState) (o : Nat) :
    ∀ n : Nat, (∀ i, o ≤ i → i < o + n → buf.getD i '\x00' ≠ '\x00') →
      (List.range' o n).foldl (countStep lib buf) st = st := by
  intro n
  induction n with
  | zero => intro _; rfl
  | succ n ih =>
    intro h
    rw [List.range'_1_concat, List.foldl_append, ih (fun i h1 h2 => h i h1 (by omega))]
    simp only [List.foldl_cons, List.foldl_nil]
    exact countStep_nonzero lib buf st _ (h _ (by omega) (by omega))

theorem getD_line (P l R : List Char) (j : Nat) (hj : j < l.length) :
    (P ++ (l ++ '\x00' :: R)).getD (P.length + j) '\x00' = l.getD j '\x00' := by
  rw [List.getD_append_right _ _ _ _ (by omega), Nat.add_sub_cancel_left,
    List.getD_append _ _ _ _ hj]

theorem getD_line_end (P l R : List Char) :
    (P ++ (l ++ '\x00' :: R)).getD (P.length + l.length) '\x00' = '\x00' := by
  rw [List.getD_append_right _ _ _ _ (by omega), Nat.add_sub_cancel_left,
    List.getD_append_right _ _ _ _ (by omega), Nat.sub_self]
  rfl

theorem line_nonzero (l : List Char) (hl : IsLine l) (j : Nat) (hj : j < l.length) :
    l.getD j '\x00' ≠ '\x00' := by
  rw [List.getD_eq_getElem _ _ hj]
  exact (hl _ (List.getElem_mem _)).2.2

theorem cstr_line (P l R : List Char) (hl : IsLine l) :
    cstr (P ++ (l ++ '\x00' :: R)) P.length = l := by
  unfold cstr
  rw [List.drop_left]
  rw [List.takeWhile_append_of_pos (fun a ha => by simpa using (hl a ha).2.2)]
  simp

theorem countLoop_line (lib : RankLib) (P l R : List Char) (hl : IsLine l) (st : CountState)
    (hp : st.pRank0 = P.length) :
    (List.range' P.length (l.length + 1)).foldl
        (countStep lib (P ++ (l ++ '\x00' :: R))) st =
      { pRank0 := P.length + l.length + 1
        iRankNum := st.iRankNum + (if isNameLine lib l then 1 else 0)
        iRankExtNum := st.iRankExtNum + (if isExtLine l then 1 else 0) } := by
  rw [List.range'_1_concat, List.foldl_append,
    countLoop_nonzero lib _ st P.length l.length (fun i h1 h2 => by
      have : i = P.length + (i - P.length) := by omega
      rw [this, getD_line P l R _ (by omega)]
      exact line_nonzero l hl _ (by omega))]
  simp only [List.foldl_cons, List.foldl_nil]
  unfold countStep
  rw [if_pos (getD_line_end P l R), hp]
  cases l with
  | nil =>
    simp [isNameLine, isExtLine]
  | cons c cs =>
    have hlt : P.length < P.length + (c :: cs).length := by simp
    have hfirst : (P ++ (c :: cs ++ '\x00' :: R)).getD P.length '\x00' = c := by
      have := getD_line P (c :: cs) R 0 (by simp)
      simpa using this
    have hstr := cstr_line P (c :: cs) R hl
    simp only [hlt, if_true, hfirst, hstr]
    by_cases h1 : c = '*'
    · subst h1
      cases st
      simp [isNameLine, isExtLine] at hp ⊢
    · by_cases h2 : c = '#'
      · subst h2
        cases st
        simp [isNameLine, isExtLine] at hp ⊢
      · by_cases h3 : lib.SCharPos '=' (c :: cs) < 0
        · cases st
          simp [isNameLine, isExtLine, h1, h2, h3] at hp ⊢
        · cases st
          simp [isNameLine, isExtLine, h1, h2, h3] at hp ⊢

theorem countLoop_lines (lib : RankLib) :
    ∀ (lines : List (List Char)) (P S : List Char) (st : CountState),
      (∀ l ∈ lines, IsLine l) → st.pRank0 = P.length →
      (List.range' P.length (zeroTerminated lines).length).foldl
          (countStep lib (P ++ (zeroTerminated lines ++ S))) st =
        { pRank0 := P.length + (zeroTerminated lines).length
          iRankNum := st.iRankNum + ((lines.filter (isNameLine lib)).length : Nat)
          iRankExtNum := st.iRankExtNum + ((lines.filter isExtLine).length : Nat) } := by
  intro lines
  induction lines with
  | nil =>
    intro P S st _ hp
    cases st
    simp_all [zeroTerminated]
  | cons l ls ih =>
    intro P S st hl hp
    have hline : IsLine l := hl l (List.mem_cons_self _ _)
    have hrest : ∀ x ∈ ls, IsLine x := fun x hx => hl x (List.mem_cons_of_mem _ hx)
    have hlen : (zeroTerminated (l :: ls)).length
        = (zeroTerminated ls).length + (l.length + 1) := by
      simp [zeroTerminated]
      omega
    have hbuf1 : P ++ (zeroTerminated (l :: ls) ++ S)
        = P ++ (l ++ '\x00' :: (zeroTerminated ls ++ S)) := by
      simp [zeroTerminated]
    have hbuf2 : P ++ (l ++ '\x00' :: (zeroTerminated ls ++ S))
        = (P ++ (l ++ ['\x00'])) ++ (zeroTerminated ls ++ S) := by
      simp
    rw [hlen, ← List.range'_append, List.foldl_append, hbuf1,
      countLoop_line lib P l (zeroTerminated ls ++ S) hline st hp, hbuf2]
    have hP : (P ++ (l ++ ['\x00'])).length = P.length + 1 * (l.length + 1) := by
      simp
    rw [← hP, ih (P ++ (l ++ ['\x00'])) S _ hrest (by simp; omega)]
    simp only [List.filter_cons]
    cases h1 : isNameLine lib l <;> cases h2 : isExtLine l <;>
      simp [List.length_append] <;> omega

/-- The counting pass of `Load` on a file of terminated lines counts the
name lines and the extension lines: `iRankNum` is the number of lines that
are not empty, start with neither `*` nor `#` and contain no `=`, and
`iRankExtNum` is the number of lines that start with `*`. -/
theorem countPass_fileOfLines (lib : RankLib) (lines : List (List Char))
    (hl : ∀ l ∈ lines, IsLine l) :
    (countPass lib (loadBuffer (fileOfLines lines)) (fileOfLines lines).length).iRankNum
        = ((lines.filter (isNameLine lib)).length : Nat) ∧
    (countPass lib (loadBuffer (fileOfLines lines)) (fileOfLines lines).length).iRankExtNum
        = ((lines.filter isExtLine).length : Nat) := by
  unfold countPass
  rw [loadBuffer_fileOfLines lines hl, length_fileOfLines, List.range_eq_range']
  have h := countLoop_lines lib lines [] ['\x00'] ⟨0, 0, 0⟩ hl rfl
  simp only [List.length_nil, List.nil_append] at h
  rw [h]
  simp

/-- `Load` on a file of terminated lines with at least one name line
succeeds, with `iRankNum` the number of name lines and `iRankExtNum` the
number of extension lines. -/
theorem Load_fileOfLines (lib : RankLib) (lines : List (List Char))
    (hl : ∀ l ∈ lines, IsLine l) (DefRankBase : Int) (s : C4RankSystem)
    (hn : (lines.filter (isNameLine lib)).length ≠ 0) :
    (Load lib (some (fileOfLines lines)) DefRankBase s).1 = true ∧
    (Load lib (some (fileOfLines lines)) DefRankBase s).2.iRankNum
      = ((lines.filter (isNameLine lib)).length : Nat) ∧
    (Load lib (some (fileOfLines lines)) DefRankBase s).2.iRankExtNum
      = ((lines.filter isExtLine).length : Nat) ∧
    (Load lib (some (fileOfLines lines)) DefRankBase s).2.pszRankNames.isSome = true := by
  have hc := countPass_fileOfLines lib lines hl
  have hne : lines ≠ [] := by
    intro h
    rw [h] at hn
    exact hn rfl
  have hsize : (fileOfLines lines).length ≠ 0 := by
    cases lines with
    | nil => exact absurd rfl hne
    | cons l ls => simp [fileOfLines]
  have hnum : (countPass lib (loadBuffer (fileOfLines lines))
      (fileOfLines lines).length).iRankNum ≠ 0 := by
    rw [hc.1]
    exact_mod_cast hn
  unfold Load
  simp only [hsize, hnum, if_false]
  exact ⟨trivial, hc.1, hc.2, rfl⟩

theorem GetRankName_congr (s t : C4RankSystem)
    (h1 : s.pszRankNames.isSome = t.pszRankNames.isSome) (h2 : s.iRankNum = t.iRankNum)
    (h3 : s.iRankExtNum = t.iRankExtNum) (iRank : Int) (f : Bool) :
    GetRankName s iRank f = GetRankName t iRank f := by
  unfold GetRankName rankParts
  rw [h1, h2, h3]

theorem namesThenExtensions_lines (n m : Nat) :
    (∀ l ∈ namesThenExtensions n m, IsLine l) ∧
    ((namesThenExtensions n m).filter (isNameLine stdRankLib)).length = n ∧
    ((namesThenExtensions n m).filter isExtLine).length = m := by
  have ha : isNameLine stdRankLib ['a'] = true := by decide
  have hb : isNameLine stdRankLib ['*'] = false := by decide
  have hc : isExtLine ['a'] = false := by decide
  have hd : isExtLine ['*'] = true := by decide
  refine ⟨?_, ?_, ?_⟩
  · intro l hl
    unfold namesThenExtensions at hl
    rw [List.mem_append] at hl
    rcases hl with hl | hl
    · rw [(List.mem_replicate.1 hl).2]
      intro ch hch
      rw [List.mem_singleton.1 hch]
      decide
    · rw [(List.mem_replicate.1 hl).2]
      intro ch hch
      rw [List.mem_singleton.1 hch]
      decide
  · unfold namesThenExtensions
    rw [List.filter_append, List.filter_replicate, List.filter_replicate]
    simp [ha, hb]
  · unfold namesThenExtensions
    rw [List.filter_append, List.filter_replicate, List.filter_replicate]
    simp [hc, hd]

/-- C28 (the code at the failing input): the rank file of 65536 lines "a"
followed by 65535 lines "*" loads with `iRankNum = 65536` and
`iRankExtNum = 65535`. On that list the `int` product
`iRankNum*(iRankExtNum+1)` is `2^32` and wraps to 0, so `GetRankName(0, true)`
takes the overflow branch, sets `iRank` to `0 - 1` and reads `pszRankNames`
at index -1, outside `[0, iRankNum)`. -/
theorem C28_product_overflow_reads_outside :
    (Load stdRankLib (some (fileOfLines (namesThenExtensions 65536 65535))) 1000 Default).1
      = true ∧
    (Load stdRankLib (some (fileOfLines (namesThenExtensions 65536 65535))) 1000
      Default).2.iRankNum = 65536 ∧
    (Load stdRankLib (some (fileOfLines (namesThenExtensions 65536 65535))) 1000
      Default).2.iRankExtNum = 65535 ∧
    GetRankName
      (Load stdRankLib (some (fileOfLines (namesThenExtensions 65536 65535))) 1000 Default).2
      0 true = RankNameResult.simple (-1) ∧
    ¬ ReadsInRange
      (Load stdRankLib (some (fileOfLines (namesThenExtensions 65536 65535))) 1000 Default).2
      (GetRankName
        (Load stdRankLib (some (fileOfLines (namesThenExtensions 65536 65535))) 1000
          Default).2 0 true) := by
  have hl := namesThenExtensions_lines 65536 65535
  have hload := Load_fileOfLines stdRankLib (namesThenExtensions 65536 65535) hl.1 1000
    Default (by rw [hl.2.1]; decide)
  rw [hl.2.1, hl.2.2] at hload
  have hget := GetRankName_congr
    (Load stdRankLib (some (fileOfLines (namesThenExtensions 65536 65535))) 1000 Default).2
    ⟨some [], some [], some [], 65536, 65535, 1000⟩ (by rw [hload.2.2.2]; rfl)
    (by rw [hload.2.1]; rfl) (by rw [hload.2.2.1]; rfl) 0 true
  rw [GetRankName_at_overflow.2.1] at hget
  refine ⟨hload.1, by rw [hload.2.1]; rfl, by rw [hload.2.2.1]; rfl, hget, ?_⟩
  rw [hget]
  intro h
  exact absurd h.1 (by decide)

/-! ### The storing pass stores what the counting pass counted -/

theorem cstr_congr (a b : List Char) (p : Nat) (hlen : a.length = b.length)
    (h : ∀ j, p ≤ j → a.getD j '\x00' = b.getD j '\x00') : cstr a p = cstr b p := by
  unfold cstr
  congr 1
  apply List.ext_getElem?
  intro n
  rw [List.getElem?_drop, List.getElem?_drop]
  by_cases hn : p + n < a.length
  · have hb : p + n < b.length := by omega
    have := h (p + n) (by omega)
    rw [List.getD_eq_getElem _ _ hn, List.getD_eq_getElem _ _ hb] at this
    rw [List.getElem?_eq_getElem hn, List.getElem?_eq_getElem hb, this]
  · rw [List.getElem?_eq_none (by omega), List.getElem?_eq_none (by omega)]

theorem takeWhile_length_le (l : List Char) :
    ∀ k : Nat, l.getD k '\x00' = '\x00' →
      (l.takeWhile (fun ch => ch ≠ '\x00')).length ≤ k := by
  induction l with
  | nil => intro k _; simp
  | cons x xs ih =>
    intro k hk
    rw [List.takeWhile_cons]
    cases k with
    | zero =>
      have hx : x = '\x00' := by simpa using hk
      simp [hx]
    | succ k =>
      have := ih k (by simpa using hk)
      split
      · simp only [List.length_cons]
        omega
      · simp

theorem cstr_length_le (buf : List Char) (p i : Nat) (hp : p ≤ i)
    (h : buf.getD i '\x00' = '\x00') : (cstr buf p).length ≤ i - p := by
  unfold cstr
  apply takeWhile_length_le
  rw [List.getD_eq_getElem?_getD, List.getElem?_drop]
  have : p + (i - p) = i := by omega
  rw [this, ← List.getD_eq_getElem?_getD]
  exact h

theorem getD_set_ne (l : List Char) (k j : Nat) (v : Char) (h : j ≠ k) :
    (l.set k v).getD j '\x00' = l.getD j '\x00' := by
  simp [List.getD_eq_getElem?_getD, List.getElem?_set_ne (Ne.symm h)]

theorem fillSetting_names (lib : RankLib) (st : FillState) (iEqPos : Int) :
    (fillSetting lib st iEqPos).names = st.names := by
  unfold fillSetting
  simp only
  split <;> rfl

theorem fillSetting_exts (lib : RankLib) (st : FillState) (iEqPos : Int) :
    (fillSetting lib st iEqPos).exts = st.exts := by
  unfold fillSetting
  simp only
  split <;> rfl

theorem fillSetting_buf (lib : RankLib) (st : FillState) (iEqPos : Int) :
    (fillSetting lib st iEqPos).buf = st.buf.set (st.pRank0 + iEqPos.toNat) '\x00' := by
  unfold fillSetting
  simp only
  split <;> rfl

theorem passesAgree_step (lib : RankLib)
    (hpos : ∀ (c : Char) (l : List Char), lib.SCharPos c l < l.length)
    (buf : List Char) (k : Nat) (cs : CountState) (fs : FillState)
    (h : PassesAgree buf k cs fs) :
    PassesAgree buf (k + 1) (countStep lib buf cs k) (fillStep lib fs k) := by
  obtain ⟨h1, h2, h3, h4, h5, h6⟩ := h
  have hk : fs.buf.getD k '\x00' = buf.getD k '\x00' := h6 k h2
  unfold countStep fillStep
  rw [hk]
  by_cases hz : buf.getD k '\x00' = '\x00'
  · rw [if_pos hz, if_pos hz, h1]
    by_cases hlt : cs.pRank0 < k
    · have hfirst : fs.buf.getD cs.pRank0 '\x00' = buf.getD cs.pRank0 '\x00' :=
        h6 _ (Nat.le_refl _)
      have hstr : cstr fs.buf cs.pRank0 = cstr buf cs.pRank0 := cstr_congr _ _ _ h5 h6
      simp only [hlt, if_true, hfirst, hstr]
      by_cases hstar : buf.getD cs.pRank0 '\x00' = '*'
      · simp only [hstar, if_true]
        refine ⟨rfl, Nat.le_refl _, h3, ?_, h5, fun j hj => h6 j (by simp at hj; omega)⟩
        simp [h4]
      · simp only [hstar, if_false]
        by_cases hhash : buf.getD cs.pRank0 '\x00' = '#'
        · simp only [hhash, ne_eq, not_true_eq_false, if_false]
          exact ⟨rfl, Nat.le_refl _, h3, h4, h5, fun j hj => h6 j (by simp at hj; omega)⟩
        · simp only [ne_eq, hhash, not_false_eq_true, if_true]
          by_cases hneg : lib.SCharPos '=' (cstr buf cs.pRank0) < 0
          · have hge : ¬ lib.SCharPos '=' (cstr buf cs.pRank0) ≥ 0 := by omega
            simp only [hneg, if_true, hge, if_false]
            refine ⟨rfl, Nat.le_refl _, ?_, h4, h5, fun j hj => h6 j (by simp at hj; omega)⟩
            simp [h3]
          · have hge : lib.SCharPos '=' (cstr buf cs.pRank0) ≥ 0 := by omega
            simp only [hneg, if_false, hge, if_true]
            have hbound := hpos '=' (cstr buf cs.pRank0)
            have hlen := cstr_length_le buf cs.pRank0 k h2 hz
            have hidx : cs.pRank0 + (lib.SCharPos '=' (cstr buf cs.pRank0)).toNat < k := by
              omega
            refine ⟨rfl, Nat.le_refl _, ?_, ?_, ?_, ?_⟩
            · show ((fillSetting lib fs _).names.length : Int) = cs.iRankNum
              rw [fillSetting_names]
              exact h3
            · show ((fillSetting lib fs _).exts.length : Int) = cs.iRankExtNum
              rw [fillSetting_exts]
              exact h4
            · show (fillSetting lib fs _).buf.length = buf.length
              rw [fillSetting_buf, List.length_set]
              exact h5
            · intro j hj
              have hj' : k + 1 ≤ j := hj
              show (fillSetting lib fs _).buf.getD j '\x00' = buf.getD j '\x00'
              rw [fillSetting_buf, h1, getD_set_ne _ _ _ _ (by omega)]
              exact h6 j (by omega)
    · simp only [hlt, if_false]
      exact ⟨rfl, Nat.le_refl _, h3, h4, h5, fun j hj => h6 j (by simp at hj; omega)⟩
  · rw [if_neg hz, if_neg hz]
    exact ⟨h1, by omega, h3, h4, h5, h6⟩

theorem passesAgree_range (lib : RankLib)
    (hpos : ∀ (c : Char) (l : List Char), lib.SCharPos c l < l.length)
    (buf : List Char) (RankBase : Int) :
    ∀ n : Nat, PassesAgree buf n
      ((List.range n).foldl (countStep lib buf) ⟨0, 0, 0⟩)
      ((List.range n).foldl (fillStep lib) ⟨buf, 0, [], [], RankBase⟩) := by
  intro n
  induction n with
  | zero => exact ⟨rfl, Nat.le_refl _, rfl, rfl, rfl, fun _ _ => rfl⟩
  | succ n ih =>
    rw [List.range_succ, List.foldl_append, List.foldl_append]
    exact passesAgree_step lib hpos buf n _ _ ih

/-- The storing pass of `Load` stores exactly as many names and extensions as
the counting pass counted, for every file, provided `SCharPos` returns a
position inside the string it searched. -/
theorem Load_stores_as_counted (lib : RankLib)
    (hpos : ∀ (c : Char) (l : List Char), lib.SCharPos c l < l.length)
    (buf : List Char) (iSize : Nat) (RankBase : Int) :
    ((fillPass lib buf iSize RankBase).names.length : Int)
        = (countPass lib buf iSize).iRankNum ∧
      ((fillPass lib buf iSize RankBase).exts.length : Int)
        = (countPass lib buf iSize).iRankExtNum := by
  have h := passesAgree_range lib hpos buf RankBase iSize
  exact ⟨h.2.2.1, h.2.2.2.1⟩

theorem firstPos_lt_length (c : Char) (l : List Char) : firstPos c l < l.length := by
  induction l with
  | nil => simp [firstPos]
  | cons x xs ih =>
    unfold firstPos
    simp only [List.length_cons]
    split
    · omega
    · split <;> omega

end C4RankSystem

end OpenClonk
